import Mathlib

/-!
Verification of the virtual-pet program (src/virtual_pet.py) against its
specification.  The Python classes SpriteAnimator and VirtualPet are shallowly
embedded as Lean structures; every timer callback or method becomes a pure
function on the state.  Randomness (random.random, random.randint) is modelled
by passing the drawn values as explicit arguments; a randint call on an empty
range (a > b), which raises ValueError in Python, is modelled by returning
none.  The float expression (dx**2 + dy**2)**0.5 and the division by it are
modelled by exact integer arithmetic: int(c + num/sqrt D) is computed from the
characterisation k*k*D <= num*num of k <= num/sqrt D, so the embedded values
agree with the mathematical reals the Python floats approximate.
-/

set_option autoImplicit false
set_option maxRecDepth 100000

namespace VirtualPet

/-- The five named animations of the pet (keys of self.animators). -/
inductive AnimName where
  | idle_l
  | idle_r
  | walk_l
  | walk_r
  | meow
deriving DecidableEq, Repr

/-- The mutable state of the VirtualPet widget.  x, y is the widget position
(self.x(), self.y()); w, h its size (80 x 80 at scale factor 1); screen_w,
screen_h the primary-screen geometry; the five cur fields are the
current_frame cursors of the five SpriteAnimator instances; fish is the
optional Fish widget, reduced to its position; pending_walk_back models a
scheduled QTimer.singleShot(1000, walk_back_for_attention) that has not fired
yet. -/
structure PetState where
  x : ℤ
  y : ℤ
  hunger : ℕ
  is_hungry : Bool
  direction : ℤ
  is_walking : Bool
  target_x : ℤ
  target_y : ℤ
  walk_speed : ℤ
  was_offscreen : Bool
  fish : Option (ℤ × ℤ)
  anim : AnimName
  curIdleL : ℕ
  curIdleR : ℕ
  curWalkL : ℕ
  curWalkR : ℕ
  curMeow : ℕ
  screen_w : ℤ
  screen_h : ℤ
  w : ℤ
  h : ℤ
  pending_walk_back : Bool
deriving DecidableEq, Repr

/-! ### Exact model of the float step arithmetic

update_position computes distance = (dx**2 + dy**2)**0.5 and commits
int(current + (d/distance)*speed).  We model this exactly: with
D = dx^2 + dy^2 and num = d*speed the committed coordinate is the truncation
toward zero (Python int()) of c + num/sqrt D.  fdsAux m D f scans downward for
the largest k <= f with k^2*D <= m^2, which for f = m and D > 0 is the floor
of m/sqrt D. -/

def fdsAux (m D : ℕ) : ℕ → ℕ
  | 0 => 0
  | f + 1 => if (f + 1) ^ 2 * D ≤ m ^ 2 then f + 1 else fdsAux m D f

/-- Floor of m / sqrt D for naturals (D > 0). -/
def floorDivSqrtNat (m D : ℕ) : ℕ := fdsAux m D m

/-- Ceiling of m / sqrt D for naturals (D > 0). -/
def ceilDivSqrtNat (m D : ℕ) : ℕ :=
  let f := floorDivSqrtNat m D
  if f ^ 2 * D = m ^ 2 then f else f + 1

/-- Floor of num / sqrt D for an integer num (D > 0). -/
def floorDivSqrt (num : ℤ) (D : ℕ) : ℤ :=
  if 0 ≤ num then (floorDivSqrtNat num.toNat D : ℤ)
  else -(ceilDivSqrtNat (-num).toNat D : ℤ)

/-- Ceiling of num / sqrt D for an integer num (D > 0). -/
def ceilDivSqrt (num : ℤ) (D : ℕ) : ℤ := -floorDivSqrt (-num) D

/-- Decides a * sqrt D >= b (D > 0) by squaring. -/
def sqrtMulGe (a b : ℤ) (D : ℕ) : Bool :=
  if 0 ≤ a then
    if b ≤ 0 then true else decide (b ^ 2 ≤ a ^ 2 * D)
  else
    if 0 < b then false else decide (a ^ 2 * D ≤ b ^ 2)

/-- Python int(c + num/sqrt D) for integer c, num and D > 0: truncation toward
zero, i.e. floor when the value is nonnegative and ceiling otherwise.  The
value is nonnegative iff c * sqrt D >= -num. -/
def pyTrunc (c num : ℤ) (D : ℕ) : ℤ :=
  if sqrtMulGe c (-num) D then c + floorDivSqrt num D else c + ceilDivSqrt num D

/-! ### The VirtualPet methods -/

/-- VirtualPet.set_animation: selects the named animator and resets its
frame cursor. -/
def set_animation (n : AnimName) (s : PetState) : PetState :=
  match n with
  | .idle_l => { s with anim := .idle_l, curIdleL := 0 }
  | .idle_r => { s with anim := .idle_r, curIdleR := 0 }
  | .walk_l => { s with anim := .walk_l, curWalkL := 0 }
  | .walk_r => { s with anim := .walk_r, curWalkR := 0 }
  | .meow => { s with anim := .meow, curMeow := 0 }

/-- VirtualPet.animate: advances the current animator by one frame (every
animator has 8 frames); the returned pixmap goes to the excluded GUI layer. -/
def animate (s : PetState) : PetState :=
  match s.anim with
  | .idle_l => { s with curIdleL := (s.curIdleL + 1) % 8 }
  | .idle_r => { s with curIdleR := (s.curIdleR + 1) % 8 }
  | .walk_l => { s with curWalkL := (s.curWalkL + 1) % 8 }
  | .walk_r => { s with curWalkR := (s.curWalkR + 1) % 8 }
  | .meow => { s with curMeow := (s.curMeow + 1) % 8 }

/-- VirtualPet.__init__: initial state.  x0, y0 are the random.randint draws
for the initial move (ranges 100..500 and 100..400); the constructor also
calls next_frame() once on the idle_l animator, so curIdleL starts at 1. -/
def initPet (x0 y0 sw sh : ℤ) : PetState :=
  { x := x0, y := y0, hunger := 0, is_hungry := false, direction := 1,
    is_walking := false, target_x := 0, target_y := 0, walk_speed := 2,
    was_offscreen := false, fish := none, anim := .idle_l,
    curIdleL := 1, curIdleR := 0, curWalkL := 0, curWalkR := 0, curMeow := 0,
    screen_w := sw, screen_h := sh, w := 80, h := 80,
    pending_walk_back := false }

/-- The offscreen check at the top of VirtualPet.update_position. -/
def off_update (s : PetState) : PetState :=
  if s.x < -s.w ∨ s.screen_w < s.x ∨ s.y < -s.h ∨ s.screen_h < s.y then
    { s with was_offscreen := true }
  else s

/-- VirtualPet.update_position, the 50 ms motion tick.  Early return when not
walking; otherwise the offscreen check, then the snap-to-target branch when
distance < walk_speed (equivalently walk_speed > 0 and D < walk_speed^2 where
D = dx^2 + dy^2), else a step of length walk_speed toward the target with both
committed coordinates truncated by int().  The sign of the float step_x equals
the sign of dx * walk_speed, which drives the direction flip. -/
def update_position (s : PetState) : PetState :=
  if s.is_walking = false then s
  else
    let t := off_update s
    let dx := t.target_x - t.x
    let dy := t.target_y - t.y
    let D := dx ^ 2 + dy ^ 2
    if 0 < t.walk_speed ∧ D < t.walk_speed ^ 2 then
      set_animation (if t.direction = 1 then .idle_r else .idle_l)
        { t with x := t.target_x, y := t.target_y, is_walking := false }
    else if 0 < D then
      let nx := dx * t.walk_speed
      let ny := dy * t.walk_speed
      let t2 := if nx < 0 ∧ t.direction = 1 then
          set_animation .walk_l { t with direction := -1 }
        else if 0 < nx ∧ t.direction = -1 then
          set_animation .walk_r { t with direction := 1 }
        else t
      { t2 with x := pyTrunc t2.x nx D.toNat, y := pyTrunc t2.y ny D.toNat }
    else t

/-- VirtualPet.spawn_fish: creates a Fish at the drawn position when none
exists.  fx, fy are the random.randint draws. -/
def spawn_fish (fx fy : ℤ) (s : PetState) : PetState :=
  if s.fish = none then { s with fish := some (fx, fy) } else s

/-- VirtualPet.get_hungry. -/
def get_hungry (fx fy : ℤ) (s : PetState) : PetState :=
  spawn_fish fx fy (set_animation .meow { s with is_hungry := true })

/-- VirtualPet.increase_hunger, the 20 s hunger tick: increments the counter,
then calls get_hungry when it exceeds the threshold 3. -/
def increase_hunger (fx fy : ℤ) (s : PetState) : PetState :=
  if 3 < s.hunger + 1 then get_hungry fx fy { s with hunger := s.hunger + 1 }
  else { s with hunger := s.hunger + 1 }

/-- VirtualPet.feed_pet: no-op while walking, otherwise resets hunger, closes
the fish and restores the idle animation matching the facing direction. -/
def feed_pet (s : PetState) : PetState :=
  if s.is_walking = true then s
  else
    let t := { s with hunger := 0, is_hungry := false, is_walking := false,
                      fish := none }
    set_animation (if t.direction = 1 then .idle_r else .idle_l) t

/-- QRect.intersects for the integer rectangles of pet and fish (positive
sizes): the spans x..x+w-1 overlap on both axes. -/
def rects_intersect (x1 y1 w1 h1 x2 y2 w2 h2 : ℤ) : Bool :=
  decide (x1 < x2 + w2 ∧ x2 < x1 + w1 ∧ y1 < y2 + h2 ∧ y2 < y1 + h1)

/-- VirtualPet.check_fish_collision, the 100 ms collision poll.  The Fish
widget is 32 x 32 at scale factor 1. -/
def check_fish_collision (s : PetState) : PetState :=
  match s.fish with
  | none => s
  | some (fx, fy) =>
      if s.is_hungry = true ∧
          rects_intersect fx fy 32 32 s.x s.y s.w s.h = true then
        feed_pet s
      else s

/-- VirtualPet.attention_seek, the 60 s attention tick.  ry is the
random.randint(0, screen_h - h) draw.  A dash teleports the pet to just off
the left edge, clears was_offscreen and schedules the one-shot walk-back. -/
def attention_seek (ry : ℤ) (s : PetState) : PetState :=
  if s.is_hungry = false ∧ s.is_walking = false ∧ s.was_offscreen = true then
    { s with x := -s.w, y := ry, was_offscreen := false,
             pending_walk_back := true }
  else s

/-- VirtualPet.walk_back_for_attention, the deferred 1000 ms one-shot: no
guard, targets the screen centre, faces right and starts walking. -/
def walk_back_for_attention (s : PetState) : PetState :=
  { set_animation .walk_r
      { s with target_x := Int.ediv s.screen_w 2,
               target_y := Int.ediv s.screen_h 2, direction := 1 }
    with is_walking := true }

/-- VirtualPet.mouseMoveEvent: a drag applies the pointer delta directly to
the position, with no guard and no bounds check. -/
def mouse_drag (dx dy : ℤ) (s : PetState) : PetState :=
  { s with x := s.x + dx, y := s.y + dy }

/-! ### SpriteAnimator -/

/-- The SpriteAnimator class: an ordered list of pre-sliced frames (frames are
abstracted to their identifiers), the constructor argument frame_count and the
cyclic cursor current_frame. -/
structure SpriteAnimator where
  frames : List ℕ
  frame_count : ℕ
  current_frame : ℕ
deriving DecidableEq, Repr

/-- SpriteAnimator.__init__: slices frame_count frames out of the sheet
(sheet i abstracts the pixmap copy at index i); the mirrored variant slices
from the rightmost frame of the flipped sheet.  The cursor starts at 0. -/
def SpriteAnimator.make (sheet : ℕ → ℕ) (frame_count : ℕ) (mirrored : Bool) :
    SpriteAnimator :=
  { frames :=
      if mirrored then (List.range frame_count).map fun i => sheet (frame_count - 1 - i)
      else (List.range frame_count).map sheet,
    frame_count := frame_count,
    current_frame := 0 }

/-- SpriteAnimator.next_frame: indexes frames at the cursor (IndexError on an
out-of-range cursor and ZeroDivisionError on frame_count = 0 are both
modelled as none), then advances the cursor modulo frame_count. -/
def SpriteAnimator.next_frame (a : SpriteAnimator) :
    Option (ℕ × SpriteAnimator) :=
  match a.frames.get? a.current_frame with
  | none => none
  | some fr =>
      if a.frame_count = 0 then none
      else some (fr, { a with current_frame := (a.current_frame + 1) % a.frame_count })

/-- SpriteAnimator.reset. -/
def SpriteAnimator.reset (a : SpriteAnimator) : SpriteAnimator :=
  { a with current_frame := 0 }

/-- The cursor invariant: frames has exactly frame_count entries and the
cursor is a valid index. -/
def SAInv (a : SpriteAnimator) : Prop :=
  a.frames.length = a.frame_count ∧ a.current_frame < a.frame_count

instance (a : SpriteAnimator) : Decidable (SAInv a) := by
  unfold SAInv
  infer_instance

/-! ### The timer-driven operations and reachability

Each constructor of Op is one entry point the Qt event loop can invoke: a
timer callback, the deferred one-shot, or a mouse drag.  Random draws are
carried as arguments.  applyOp returns none when the Python callback raises
(random.randint on an empty range); the exception leaves the state unchanged.
Valid restricts the carried draws to the ranges the Python random calls
actually produce, and gates the one-shot on having been scheduled. -/

inductive Op where
  | animate
  | motion
  | hungerTick (fx fy : ℤ)
  | collision
  | feed
  | rwalk (roll : ℚ) (rx ry : ℤ)
  | attention (ry : ℤ)
  | walkBack
  | drag (dx dy : ℤ)
deriving DecidableEq

/-- VirtualPet.random_walk, the 15 s walk trigger.  roll is the
random.random() draw, rx and ry the random.randint draws for the new target.
random.randint raises ValueError when its range is empty, which aborts the
callback: modelled as none.  (On an empty y range Python would raise after
already assigning target_x; that partially mutated target is not observable
by any other operation before the next walk overwrites it.) -/
def random_walk (roll : ℚ) (rx ry : ℤ) (s : PetState) : Option PetState :=
  if s.is_hungry = true ∨ s.is_walking = true then some s
  else if mkRat 3 10 < roll then some s
  else
    let min_x := max 0 (s.x - 200)
    let max_x := min (s.screen_w - s.w) (s.x + 200)
    let min_y := max 0 (s.y - 200)
    let max_y := min (s.screen_h - s.h) (s.y + 200)
    if max_x < min_x then none
    else if max_y < min_y then none
    else
      let t := { s with target_x := rx, target_y := ry }
      let t2 := if t.target_x < t.x then set_animation .walk_l { t with direction := -1 }
        else set_animation .walk_r { t with direction := 1 }
      some { t2 with is_walking := true }

def applyOp : Op → PetState → Option PetState
  | .animate, s => some (animate s)
  | .motion, s => some (update_position s)
  | .hungerTick fx fy, s => some (increase_hunger fx fy s)
  | .collision, s => some (check_fish_collision s)
  | .feed, s => some (feed_pet s)
  | .rwalk roll rx ry, s => random_walk roll rx ry s
  | .attention ry, s => some (attention_seek ry s)
  | .walkBack, s => some (walk_back_for_attention { s with pending_walk_back := false })
  | .drag dx dy, s => some (mouse_drag dx dy s)

/-- Side conditions under which an operation can actually occur: random draws
lie in the ranges Python passes to random.randint, and the deferred walk-back
fires only when scheduled. -/
def Valid : Op → PetState → Bool
  | .hungerTick fx fy, s =>
      decide ((3 < s.hunger + 1 ∧ s.fish = none) →
        (50 ≤ fx ∧ fx ≤ s.screen_w - 32 - 50 ∧ 50 ≤ fy ∧ fy ≤ s.screen_h - 32 - 50))
  | .rwalk roll rx ry, s =>
      decide (0 ≤ roll ∧ roll < 1 ∧
        ((s.is_hungry = false ∧ s.is_walking = false ∧ roll ≤ mkRat 3 10) →
          (max 0 (s.x - 200) ≤ rx ∧ rx ≤ min (s.screen_w - s.w) (s.x + 200) ∧
            max 0 (s.y - 200) ≤ ry ∧ ry ≤ min (s.screen_h - s.h) (s.y + 200))))
  | .attention ry, s =>
      decide ((s.is_hungry = false ∧ s.is_walking = false ∧ s.was_offscreen = true) →
        (0 ≤ ry ∧ ry ≤ s.screen_h - s.h))
  | .walkBack, s => s.pending_walk_back
  | _, _ => true

/-- Reachable states of the program on a sw x sh screen: the constructor
state (initial position drawn from 100..500 x 100..400) closed under every
operation the event loop can perform. -/
inductive Reach (sw sh : ℤ) : PetState → Prop where
  | init (x0 y0 : ℤ) : 100 ≤ x0 → x0 ≤ 500 → 100 ≤ y0 → y0 ≤ 400 →
      Reach sw sh (initPet x0 y0 sw sh)
  | step {s s' : PetState} (op : Op) : Reach sw sh s → Valid op s = true →
      applyOp op s = some s' → Reach sw sh s'

/-! ### Concrete trace states used by counterexamples and witnesses -/

/-- Initial state of the concrete traces (screen 1000 x 1000, initial
position (100, 100)). -/
def st0 : PetState := initPet 100 100 1000 1000

/-- After a successful random_walk with roll 1/5 and target draw (104, 100):
walking right toward (104, 100). -/
def st1 : PetState :=
  { st0 with target_x := 104, target_y := 100, direction := 1,
             anim := .walk_r, curWalkR := 0, is_walking := true }

/-- Iterated hunger ticks with a fixed fish draw. -/
def hungerIter (f : ℕ → ℤ × ℤ) : ℕ → PetState → PetState
  | 0, s => s
  | n + 1, s => increase_hunger (f n).1 (f n).2 (hungerIter f n s)

/-- Iterated attention-timer firings with a stream of vertical draws. -/
def attnIter (g : ℕ → ℤ) : ℕ → PetState → PetState
  | 0, s => s
  | n + 1, s => attention_seek (g n) (attnIter g n s)

/-- st1 after one hunger tick: walking with hunger 1. -/
def stWalkHungry1 : PetState := hungerIter (fun _ => (100, 300)) 1 st1

/-- st1 after four hunger ticks: hungry (meow animation, fish spawned) while
still walking. -/
def stHungryWalk : PetState := hungerIter (fun _ => (100, 300)) 4 st1

/-- stHungryWalk after three motion ticks: the walk completed, the snap set
the idle_r animation although the pet is still hungry. -/
def stBad : PetState := update_position^[3] stHungryWalk

/-- st0 dragged 400 px to the left: position (-300, 100), far offscreen. -/
def stDragged : PetState := mouse_drag (-400) 0 st0

/-- stWalkHungry1 dragged 300 px to the left: a walking state at x = -200. -/
def stWalkOff : PetState := mouse_drag (-300) 0 stWalkHungry1

/-- st0 with the offscreen flag set: an idle, non-hungry state eligible for
an attention dash. -/
def stOff : PetState := { st0 with was_offscreen := true }

/-- The walking-from-(0,0)-to-(100,0) scenario state of the specification. -/
def scene0 : PetState :=
  { x := 0, y := 0, hunger := 0, is_hungry := false, direction := 1,
    is_walking := true, target_x := 100, target_y := 0, walk_speed := 2,
    was_offscreen := false, fish := none, anim := .walk_r,
    curIdleL := 1, curIdleR := 0, curWalkL := 0, curWalkR := 0, curMeow := 0,
    screen_w := 1000, screen_h := 1000, w := 80, h := 80,
    pending_walk_back := false }

/-- A slightly tilted walk: from (0, 0) to (1, 100) at speed 2.  Because the
committed coordinates are truncated by int() every tick, the step toward a
non-axis-aligned target loses its fractional part each tick and the walk
takes far longer than ceil(distance/speed). -/
def scene1 : PetState := { scene0 with target_x := 1, target_y := 100 }

/-- stBad with the offscreen flag set: a hungry, idle state whose flag is
set, used to show the hunger gate of the attention dash. -/
def stHungryOff : PetState := { stBad with was_offscreen := true }

/-- st1 with the offscreen flag set: a walking, non-hungry state whose flag
is set, used to show the walking gate of the attention dash. -/
def stWalkFlag : PetState := { st1 with was_offscreen := true }

/-! ### Properties of the exact step arithmetic -/

theorem fdsAux_sat (m D : ℕ) : ∀ f, (fdsAux m D f) ^ 2 * D ≤ m ^ 2 := by
  intro f
  induction f with
  | zero => simp [fdsAux]
  | succ f ih =>
      unfold fdsAux
      split
      · assumption
      · exact ih

theorem fdsAux_ge (m D : ℕ) :
    ∀ f k, k ≤ f → k ^ 2 * D ≤ m ^ 2 → k ≤ fdsAux m D f := by
  intro f
  induction f with
  | zero => intro k hk _; simpa [fdsAux] using hk
  | succ f ih =>
      intro k hk hsat
      unfold fdsAux
      split
      · exact hk
      · rename_i hno
        rcases Nat.lt_or_ge k (f + 1) with hlt | hge
        · exact ih k (Nat.lt_succ_iff.mp hlt) hsat
        · exact absurd (Nat.le_antisymm hk hge ▸ hsat) hno

theorem floorDivSqrtNat_exact (a n : ℕ) (hn : 0 < n) :
    floorDivSqrtNat (a * n) (n ^ 2) = a := by
  apply Nat.le_antisymm
  · have hsat := fdsAux_sat (a * n) (n ^ 2) (a * n)
    have h2 : (fdsAux (a * n) (n ^ 2) (a * n)) ^ 2 * n ^ 2 ≤ a ^ 2 * n ^ 2 := by
      calc (fdsAux (a * n) (n ^ 2) (a * n)) ^ 2 * n ^ 2 ≤ (a * n) ^ 2 := hsat
        _ = a ^ 2 * n ^ 2 := by ring
    have h3 := Nat.le_of_mul_le_mul_right h2 (Nat.pos_pow_of_pos 2 hn)
    exact (Nat.pow_le_pow_iff_left (by norm_num)).mp h3
  · apply fdsAux_ge
    · exact Nat.le_mul_of_pos_right a hn
    · calc a ^ 2 * n ^ 2 = (a * n) ^ 2 := by ring
        _ ≤ (a * n) ^ 2 := le_rfl

theorem ceilDivSqrtNat_exact (a n : ℕ) (hn : 0 < n) :
    ceilDivSqrtNat (a * n) (n ^ 2) = a := by
  unfold ceilDivSqrtNat
  rw [floorDivSqrtNat_exact a n hn]
  have : a ^ 2 * n ^ 2 = (a * n) ^ 2 := by ring
  simp [this]

theorem floorDivSqrt_exact (k : ℤ) (n : ℕ) (hn : 0 < n) :
    floorDivSqrt (k * n) (n ^ 2) = k := by
  unfold floorDivSqrt
  rcases le_or_lt 0 k with hk | hk
  · obtain ⟨a, rfl⟩ := Int.eq_ofNat_of_zero_le hk
    have hpos : (0 : ℤ) ≤ (a : ℤ) * n := by positivity
    rw [if_pos hpos]
    have ht : ((a : ℤ) * (n : ℤ)).toNat = a * n := by
      rw [← Nat.cast_mul, Int.toNat_natCast]
    rw [ht, floorDivSqrtNat_exact a n hn]
  · obtain ⟨a, ha⟩ := Int.eq_ofNat_of_zero_le (le_of_lt (Int.neg_pos.mpr hk))
    have hneg : ¬(0 : ℤ) ≤ k * n := by
      apply not_le.mpr
      exact mul_neg_of_neg_of_pos hk (by exact_mod_cast hn)
    rw [if_neg hneg]
    have ht : (-(k * (n : ℤ))).toNat = a * n := by
      have : -(k * (n : ℤ)) = (a : ℤ) * n := by rw [← ha]; ring
      rw [this, ← Nat.cast_mul, Int.toNat_natCast]
    rw [ht, ceilDivSqrtNat_exact a n hn]
    omega

theorem ceilDivSqrt_exact (k : ℤ) (n : ℕ) (hn : 0 < n) :
    ceilDivSqrt (k * n) (n ^ 2) = k := by
  unfold ceilDivSqrt
  have h : -(k * (n : ℤ)) = (-k) * n := by ring
  rw [h, floorDivSqrt_exact (-k) n hn, neg_neg]

/-- When num is an exact multiple k * n of sqrt D = n, the truncation is
exact: int(c + num/sqrt D) = c + k. -/
theorem pyTrunc_exact (c k : ℤ) (n : ℕ) (hn : 0 < n) :
    pyTrunc c (k * n) (n ^ 2) = c + k := by
  unfold pyTrunc
  split
  · rw [floorDivSqrt_exact k n hn]
  · rw [ceilDivSqrt_exact k n hn]

/-! ### Bounds on the truncated step in general position

For a speed-2 step toward a coordinate at signed distance d, the committed
value int(c + 2d/sqrt D) never moves past the target coordinate, never moves
away from it, and moves by at least one pixel whenever 2|d| >= sqrt D (in
particular for the dominant coordinate).  All bounds are derived from the
integer characterisation of floor and ceiling of m/sqrt D. -/

theorem floorDivSqrtNat_le_half (a D : ℕ) (hD : 4 ≤ D) :
    floorDivSqrtNat (2 * a) D ≤ a := by
  by_contra hno
  push_neg at hno
  have hsat := fdsAux_sat (2 * a) D (2 * a)
  have h1 : (a + 1) ^ 2 * D ≤ (2 * a) ^ 2 := by
    calc (a + 1) ^ 2 * D ≤ (floorDivSqrtNat (2 * a) D) ^ 2 * D :=
          Nat.mul_le_mul_right D (Nat.pow_le_pow_left (by omega) 2)
      _ ≤ (2 * a) ^ 2 := hsat
  nlinarith

theorem ceilDivSqrtNat_le_half (a D : ℕ) (hD : 4 ≤ D) :
    ceilDivSqrtNat (2 * a) D ≤ a := by
  unfold ceilDivSqrtNat
  dsimp only
  have hle := floorDivSqrtNat_le_half a D hD
  split
  · exact hle
  · rename_i hne
    rcases Nat.lt_or_ge (floorDivSqrtNat (2 * a) D) a with hlt | hge
    · omega
    · exfalso
      apply hne
      have hfa : floorDivSqrtNat (2 * a) D = a := Nat.le_antisymm hle hge
      have hsat : (floorDivSqrtNat (2 * a) D) ^ 2 * D ≤ (2 * a) ^ 2 :=
        fdsAux_sat (2 * a) D (2 * a)
      rw [hfa] at hsat ⊢
      have h2 : (2 * a) ^ 2 ≤ a ^ 2 * D := by nlinarith
      exact Nat.le_antisymm hsat h2

theorem floorDivSqrtNat_pos (a D : ℕ) (ha : 1 ≤ a) (hle : D ≤ 4 * a ^ 2) :
    1 ≤ floorDivSqrtNat (2 * a) D :=
  fdsAux_ge (2 * a) D (2 * a) 1 (by omega) (by nlinarith)

theorem ceilDivSqrtNat_ge_floor (m D : ℕ) :
    floorDivSqrtNat m D ≤ ceilDivSqrtNat m D := by
  unfold ceilDivSqrtNat
  dsimp only
  split <;> omega

theorem floorDivSqrt_cast_pos (a D : ℕ) :
    floorDivSqrt (2 * (a : ℤ)) D = (floorDivSqrtNat (2 * a) D : ℤ) := by
  unfold floorDivSqrt
  rw [if_pos (by positivity)]
  congr 1

theorem floorDivSqrt_cast_neg (a D : ℕ) :
    floorDivSqrt (-(2 * (a : ℤ))) D = -(ceilDivSqrtNat (2 * a) D : ℤ) := by
  rcases Nat.eq_zero_or_pos a with rfl | ha
  · simp [floorDivSqrt, floorDivSqrtNat, ceilDivSqrtNat, fdsAux]
  · unfold floorDivSqrt
    rw [if_neg (by omega)]
    congr 2
    rw [show -(-(2 * (a : ℤ))) = ((2 * a : ℕ) : ℤ) by push_cast; ring,
      Int.toNat_natCast]

theorem ceilDivSqrt_cast_pos (a D : ℕ) :
    ceilDivSqrt (2 * (a : ℤ)) D = (ceilDivSqrtNat (2 * a) D : ℤ) := by
  unfold ceilDivSqrt
  rw [floorDivSqrt_cast_neg a D, neg_neg]

theorem ceilDivSqrt_cast_neg (a D : ℕ) :
    ceilDivSqrt (-(2 * (a : ℤ))) D = -(floorDivSqrtNat (2 * a) D : ℤ) := by
  unfold ceilDivSqrt
  rw [neg_neg, floorDivSqrt_cast_pos a D]

theorem pyTrunc_between_pos (c : ℤ) (a D : ℕ) (hD : 4 ≤ D) :
    c ≤ pyTrunc c (2 * (a : ℤ)) D ∧ pyTrunc c (2 * (a : ℤ)) D ≤ c + a := by
  have hf := floorDivSqrtNat_le_half a D hD
  have hc := ceilDivSqrtNat_le_half a D hD
  unfold pyTrunc
  split
  · rw [floorDivSqrt_cast_pos a D]
    omega
  · rw [ceilDivSqrt_cast_pos a D]
    omega

theorem pyTrunc_between_neg (c : ℤ) (a D : ℕ) (hD : 4 ≤ D) :
    c - a ≤ pyTrunc c (-(2 * (a : ℤ))) D ∧ pyTrunc c (-(2 * (a : ℤ))) D ≤ c := by
  have hf := floorDivSqrtNat_le_half a D hD
  have hc := ceilDivSqrtNat_le_half a D hD
  unfold pyTrunc
  split
  · rw [floorDivSqrt_cast_neg a D]
    omega
  · rw [ceilDivSqrt_cast_neg a D]
    omega

theorem pyTrunc_progress_pos (c : ℤ) (a D : ℕ) (_hD : 4 ≤ D) (ha : 1 ≤ a)
    (hle : D ≤ 4 * a ^ 2) : c + 1 ≤ pyTrunc c (2 * (a : ℤ)) D := by
  have h1 := floorDivSqrtNat_pos a D ha hle
  have h2 := ceilDivSqrtNat_ge_floor (2 * a) D
  unfold pyTrunc
  split
  · rw [floorDivSqrt_cast_pos a D]
    omega
  · rw [ceilDivSqrt_cast_pos a D]
    omega

theorem pyTrunc_progress_neg (c : ℤ) (a D : ℕ) (_hD : 4 ≤ D) (ha : 1 ≤ a)
    (hle : D ≤ 4 * a ^ 2) : pyTrunc c (-(2 * (a : ℤ))) D ≤ c - 1 := by
  have h1 := floorDivSqrtNat_pos a D ha hle
  have h2 := ceilDivSqrtNat_ge_floor (2 * a) D
  unfold pyTrunc
  split
  · rw [floorDivSqrt_cast_neg a D]
    omega
  · rw [ceilDivSqrt_cast_neg a D]
    omega

/-- For one coordinate at signed distance d, the truncated step never leaves
the interval between the current and the target coordinate, so the new
squared residual is at most d^2. -/
theorem coord_sq_le (c d : ℤ) (D : ℕ) (hD : 4 ≤ D) :
    ((c + d) - pyTrunc c (d * 2) D) ^ 2 ≤ d ^ 2 := by
  rcases le_or_lt 0 d with hsd | hsd
  · lift d to ℕ using hsd with a
    rw [show ((a : ℤ) * 2) = 2 * (a : ℤ) by ring]
    have hb := pyTrunc_between_pos c a D hD
    nlinarith [hb.1, hb.2]
  · have ha : d = -(((-d).toNat : ℕ) : ℤ) := by omega
    rw [show (d * 2) = -(2 * (((-d).toNat : ℕ) : ℤ)) by omega]
    have hb := pyTrunc_between_neg c (-d).toNat D hD
    nlinarith [hb.1, hb.2, ha]

/-- For the dominant coordinate (2 d^2 >= D), the truncated step moves at
least one pixel toward the target, so the new squared residual is strictly
below d^2. -/
theorem coord_sq_lt (c d : ℤ) (D : ℕ) (hD : 4 ≤ D) (hdom : (D : ℤ) ≤ 2 * d ^ 2) :
    ((c + d) - pyTrunc c (d * 2) D) ^ 2 < d ^ 2 := by
  have hd0 : d ≠ 0 := by
    intro h
    rw [h] at hdom
    norm_num at hdom
    omega
  rcases le_or_lt 0 d with hsd | hsd
  · lift d to ℕ using hsd with a
    have ha : 1 ≤ a := by
      rcases Nat.eq_zero_or_pos a with rfl | h
      · simp at hd0
      · exact h
    have hle : D ≤ 4 * a ^ 2 := by
      have : (D : ℤ) ≤ 4 * (a : ℤ) ^ 2 := by nlinarith
      exact_mod_cast this
    rw [show ((a : ℤ) * 2) = 2 * (a : ℤ) by ring]
    have hb := pyTrunc_between_pos c a D hD
    have hp := pyTrunc_progress_pos c a D hD ha hle
    have ha1 : (1 : ℤ) ≤ (a : ℤ) := by exact_mod_cast ha
    nlinarith [hb.2, hp]
  · have ha : 1 ≤ (-d).toNat := by omega
    have hle : D ≤ 4 * (-d).toNat ^ 2 := by
      have hcast : (((-d).toNat : ℕ) : ℤ) = -d := by omega
      have : (D : ℤ) ≤ 4 * (((-d).toNat : ℕ) : ℤ) ^ 2 := by
        rw [hcast]; nlinarith
      exact_mod_cast this
    have hcast : (((-d).toNat : ℕ) : ℤ) = -d := by omega
    rw [show (d * 2) = -(2 * (((-d).toNat : ℕ) : ℤ)) by omega]
    have hb := pyTrunc_between_neg c (-d).toNat D hD
    have hp := pyTrunc_progress_neg c (-d).toNat D hD ha hle
    nlinarith [hb.1, hp, hcast]

/-! ### Projection lemmas for the primitive state updates -/

@[simp] theorem off_update_x (s : PetState) : (off_update s).x = s.x := by
  unfold off_update; split <;> rfl

@[simp] theorem off_update_y (s : PetState) : (off_update s).y = s.y := by
  unfold off_update; split <;> rfl

@[simp] theorem off_update_hunger (s : PetState) : (off_update s).hunger = s.hunger := by
  unfold off_update; split <;> rfl

@[simp] theorem off_update_is_hungry (s : PetState) : (off_update s).is_hungry = s.is_hungry := by
  unfold off_update; split <;> rfl

@[simp] theorem off_update_direction (s : PetState) : (off_update s).direction = s.direction := by
  unfold off_update; split <;> rfl

@[simp] theorem off_update_is_walking (s : PetState) : (off_update s).is_walking = s.is_walking := by
  unfold off_update; split <;> rfl

@[simp] theorem off_update_target_x (s : PetState) : (off_update s).target_x = s.target_x := by
  unfold off_update; split <;> rfl

@[simp] theorem off_update_target_y (s : PetState) : (off_update s).target_y = s.target_y := by
  unfold off_update; split <;> rfl

@[simp] theorem off_update_walk_speed (s : PetState) : (off_update s).walk_speed = s.walk_speed := by
  unfold off_update; split <;> rfl

@[simp] theorem off_update_fish (s : PetState) : (off_update s).fish = s.fish := by
  unfold off_update; split <;> rfl

@[simp] theorem off_update_anim (s : PetState) : (off_update s).anim = s.anim := by
  unfold off_update; split <;> rfl

@[simp] theorem off_update_pending (s : PetState) :
    (off_update s).pending_walk_back = s.pending_walk_back := by
  unfold off_update; split <;> rfl

@[simp] theorem off_update_screen_w (s : PetState) : (off_update s).screen_w = s.screen_w := by
  unfold off_update; split <;> rfl

@[simp] theorem off_update_screen_h (s : PetState) : (off_update s).screen_h = s.screen_h := by
  unfold off_update; split <;> rfl

@[simp] theorem off_update_w (s : PetState) : (off_update s).w = s.w := by
  unfold off_update; split <;> rfl

@[simp] theorem off_update_h (s : PetState) : (off_update s).h = s.h := by
  unfold off_update; split <;> rfl

@[simp] theorem set_animation_x (n : AnimName) (s : PetState) :
    (set_animation n s).x = s.x := by cases n <;> rfl

@[simp] theorem set_animation_y (n : AnimName) (s : PetState) :
    (set_animation n s).y = s.y := by cases n <;> rfl

@[simp] theorem set_animation_hunger (n : AnimName) (s : PetState) :
    (set_animation n s).hunger = s.hunger := by cases n <;> rfl

@[simp] theorem set_animation_is_hungry (n : AnimName) (s : PetState) :
    (set_animation n s).is_hungry = s.is_hungry := by cases n <;> rfl

@[simp] theorem set_animation_direction (n : AnimName) (s : PetState) :
    (set_animation n s).direction = s.direction := by cases n <;> rfl

@[simp] theorem set_animation_is_walking (n : AnimName) (s : PetState) :
    (set_animation n s).is_walking = s.is_walking := by cases n <;> rfl

@[simp] theorem set_animation_target_x (n : AnimName) (s : PetState) :
    (set_animation n s).target_x = s.target_x := by cases n <;> rfl

@[simp] theorem set_animation_target_y (n : AnimName) (s : PetState) :
    (set_animation n s).target_y = s.target_y := by cases n <;> rfl

@[simp] theorem set_animation_walk_speed (n : AnimName) (s : PetState) :
    (set_animation n s).walk_speed = s.walk_speed := by cases n <;> rfl

@[simp] theorem set_animation_was_offscreen (n : AnimName) (s : PetState) :
    (set_animation n s).was_offscreen = s.was_offscreen := by cases n <;> rfl

@[simp] theorem set_animation_fish (n : AnimName) (s : PetState) :
    (set_animation n s).fish = s.fish := by cases n <;> rfl

@[simp] theorem set_animation_anim (n : AnimName) (s : PetState) :
    (set_animation n s).anim = n := by cases n <;> rfl

@[simp] theorem set_animation_pending (n : AnimName) (s : PetState) :
    (set_animation n s).pending_walk_back = s.pending_walk_back := by cases n <;> rfl

@[simp] theorem set_animation_screen_w (n : AnimName) (s : PetState) :
    (set_animation n s).screen_w = s.screen_w := by cases n <;> rfl

@[simp] theorem set_animation_screen_h (n : AnimName) (s : PetState) :
    (set_animation n s).screen_h = s.screen_h := by cases n <;> rfl

@[simp] theorem set_animation_w (n : AnimName) (s : PetState) :
    (set_animation n s).w = s.w := by cases n <;> rfl

@[simp] theorem set_animation_h (n : AnimName) (s : PetState) :
    (set_animation n s).h = s.h := by cases n <;> rfl

@[simp] theorem animate_x (s : PetState) : (animate s).x = s.x := by
  unfold animate; cases s.anim <;> rfl

@[simp] theorem animate_y (s : PetState) : (animate s).y = s.y := by
  unfold animate; cases s.anim <;> rfl

@[simp] theorem animate_hunger (s : PetState) : (animate s).hunger = s.hunger := by
  unfold animate; cases s.anim <;> rfl

@[simp] theorem animate_is_hungry (s : PetState) : (animate s).is_hungry = s.is_hungry := by
  unfold animate; cases s.anim <;> rfl

@[simp] theorem animate_is_walking (s : PetState) : (animate s).is_walking = s.is_walking := by
  unfold animate; cases s.anim <;> rfl

@[simp] theorem animate_fish (s : PetState) : (animate s).fish = s.fish := by
  unfold animate; cases s.anim <;> rfl

@[simp] theorem animate_was_offscreen (s : PetState) :
    (animate s).was_offscreen = s.was_offscreen := by
  unfold animate; cases s.anim <;> rfl

@[simp] theorem animate_anim (s : PetState) : (animate s).anim = s.anim := by
  unfold animate; cases s.anim <;> rfl

/-! ### The motion tick on horizontal walks -/

theorem pyTrunc_zero_num (c : ℤ) (n : ℕ) (hn : 0 < n) : pyTrunc c 0 (n ^ 2) = c := by
  have h := pyTrunc_exact c 0 n hn
  simpa using h

/-- Idle states are fixed by the motion tick. -/
theorem tick_idle (s : PetState) (h : s.is_walking = false) :
    update_position s = s := by
  unfold update_position
  rw [h, if_pos rfl]

/-- Snap tick: a horizontal speed-2 walk at distance at most 1 from the
target ends on this tick, snapped exactly onto the target, with the idle
animation matching the facing direction. -/
theorem tick_snap (s : PetState) (hwalk : s.is_walking = true)
    (hspeed : s.walk_speed = 2) (hty : s.target_y = s.y)
    (hd : (s.target_x - s.x).natAbs ≤ 1) :
    (update_position s).is_walking = false ∧
      (update_position s).x = s.target_x ∧
      (update_position s).y = s.y ∧
      (update_position s).anim =
        (if s.direction = 1 then AnimName.idle_r else AnimName.idle_l) := by
  have h1 : ((s.target_x - s.x).natAbs : ℤ) ≤ 1 := by exact_mod_cast hd
  have h2 := Int.natAbs_sq (s.target_x - s.x)
  have h3 : (0:ℤ) ≤ ((s.target_x - s.x).natAbs : ℤ) := by positivity
  have hsq : (s.target_x - s.x) ^ 2 + (s.y - s.y) ^ 2 < (2:ℤ) ^ 2 := by nlinarith
  unfold update_position
  rw [hwalk, if_neg (by decide : ¬(true = false))]
  simp only [off_update_x, off_update_y, off_update_target_x, off_update_target_y,
    off_update_walk_speed, off_update_direction, hspeed, hty]
  rw [if_pos ⟨by norm_num, hsq⟩]
  refine ⟨by simp, by simp, by simp, by simp⟩

/-- Moving tick: a horizontal speed-2 walk at distance at least 2 from the
target moves exactly 2 px toward it and stays walking. -/
theorem tick_move (s : PetState) (hwalk : s.is_walking = true)
    (hspeed : s.walk_speed = 2) (hty : s.target_y = s.y)
    (hd : 2 ≤ (s.target_x - s.x).natAbs) :
    (update_position s).is_walking = true ∧
      (update_position s).walk_speed = 2 ∧
      (update_position s).target_x = s.target_x ∧
      (update_position s).target_y = (update_position s).y ∧
      (update_position s).y = s.y ∧
      (s.target_x - (update_position s).x).natAbs + 2 = (s.target_x - s.x).natAbs := by
  have h2 := Int.natAbs_sq (s.target_x - s.x)
  have h1 : (2:ℤ) ≤ ((s.target_x - s.x).natAbs : ℤ) := by exact_mod_cast hd
  have hsq : ¬((0:ℤ) < 2 ∧ (s.target_x - s.x) ^ 2 + (s.y - s.y) ^ 2 < (2:ℤ) ^ 2) := by
    rintro ⟨-, hlt⟩
    nlinarith
  have hpos : (0:ℤ) < (s.target_x - s.x) ^ 2 + (s.y - s.y) ^ 2 := by
    have : (1:ℤ) ≤ ((s.target_x - s.x).natAbs : ℤ) := by omega
    nlinarith
  have hn : 0 < (s.target_x - s.x).natAbs := by omega
  have hDtoNat : ((s.target_x - s.x) ^ 2 + (s.y - s.y) ^ 2).toNat =
      (s.target_x - s.x).natAbs ^ 2 := by
    have hyy : s.y - s.y = 0 := sub_self _
    rw [hyy]
    norm_num
    rw [← h2, ← Nat.cast_pow, Int.toNat_natCast]
  have hxstep : pyTrunc s.x ((s.target_x - s.x) * 2)
      (((s.target_x - s.x) ^ 2 + (s.y - s.y) ^ 2).toNat) =
      s.x + (if s.x < s.target_x then 2 else -2) := by
    rw [hDtoNat]
    rcases Int.natAbs_eq (s.target_x - s.x) with hc | hc
    · have hlt : s.x < s.target_x := by omega
      have hrw : (s.target_x - s.x) * 2 = 2 * (((s.target_x - s.x).natAbs : ℕ) : ℤ) := by
        omega
      rw [hrw, pyTrunc_exact s.x 2 (s.target_x - s.x).natAbs hn, if_pos hlt]
    · have hlt : ¬s.x < s.target_x := by omega
      have hrw : (s.target_x - s.x) * 2 = (-2) * (((s.target_x - s.x).natAbs : ℕ) : ℤ) := by
        omega
      rw [hrw, pyTrunc_exact s.x (-2) (s.target_x - s.x).natAbs hn, if_neg hlt]
  have hystep : pyTrunc s.y ((s.y - s.y) * 2)
      (((s.target_x - s.x) ^ 2 + (s.y - s.y) ^ 2).toNat) = s.y := by
    rw [hDtoNat]
    have : (s.y - s.y) * 2 = 0 := by ring
    rw [this, pyTrunc_zero_num s.y (s.target_x - s.x).natAbs hn]
  unfold update_position
  rw [hwalk, if_neg (by decide : ¬(true = false))]
  simp only [off_update_x, off_update_y, off_update_target_x, off_update_target_y,
    off_update_walk_speed, off_update_direction, hspeed, hty]
  rw [if_neg hsq, if_pos hpos]
  split_ifs with hf1 hf2 <;>
    refine ⟨?_, ?_, ?_, ?_, ?_, ?_⟩ <;>
    simp only [set_animation_x, set_animation_y, set_animation_is_walking,
      set_animation_walk_speed, set_animation_target_x, set_animation_target_y,
      off_update_x, off_update_y, off_update_is_walking, off_update_walk_speed,
      off_update_target_x, off_update_target_y, hwalk, hspeed, hty, hxstep, hystep] <;>
    first
      | rfl
      | (split_ifs <;> omega)

/-- Once idle, the pet stays idle under iterated motion ticks. -/
theorem iterate_idle (s : PetState) (h : s.is_walking = false) :
    ∀ k, update_position^[k] s = s := by
  intro k
  induction k with
  | zero => rfl
  | succ k ih =>
      rw [Function.iterate_succ_apply, tick_idle s h]
      exact ih

/-- Convergence of horizontal speed-2 walks: if ceil(d/2) <= k, the pet is
idle, snapped exactly onto the target, after k + 1 motion ticks. -/
theorem walk_converges (k : ℕ) :
    ∀ s : PetState, s.is_walking = true → s.walk_speed = 2 → s.target_y = s.y →
      ((s.target_x - s.x).natAbs + 1) / 2 ≤ k →
      (update_position^[k + 1] s).is_walking = false ∧
        (update_position^[k + 1] s).x = s.target_x ∧
        (update_position^[k + 1] s).y = s.y := by
  induction k with
  | zero =>
      intro s hwalk hspeed hty hk
      have hd : (s.target_x - s.x).natAbs ≤ 1 := by omega
      obtain ⟨h1, h2, h3, _⟩ := tick_snap s hwalk hspeed hty hd
      simpa [Function.iterate_one] using ⟨h1, h2, h3⟩
  | succ k ih =>
      intro s hwalk hspeed hty hk
      rcases Nat.lt_or_ge (s.target_x - s.x).natAbs 2 with hlt | hge
      · have hd : (s.target_x - s.x).natAbs ≤ 1 := by omega
        obtain ⟨h1, h2, h3, _⟩ := tick_snap s hwalk hspeed hty hd
        have hiter : update_position^[k + 1 + 1] s =
            update_position^[k + 1] (update_position s) := by
          rw [Function.iterate_succ_apply]
        rw [hiter, iterate_idle (update_position s) h1 (k + 1)]
        exact ⟨h1, h2, h3⟩
      · obtain ⟨m1, m2, m3, m4, m5, m6⟩ := tick_move s hwalk hspeed hty hge
        have hk2 : (((update_position s).target_x - (update_position s).x).natAbs + 1) / 2
            ≤ k := by
          rw [m3]
          omega
        have hres := ih (update_position s) m1 m2 (m4.symm ▸ rfl) hk2
        have hiter : update_position^[k + 1 + 1] s =
            update_position^[k + 1] (update_position s) := by
          rw [Function.iterate_succ_apply]
        rw [hiter]
        refine ⟨hres.1, ?_, ?_⟩
        · rw [hres.2.1, m3]
        · rw [hres.2.2, m5]

/-- Strict decrease: while a horizontal speed-2 walk continues (the tick does
not end it), the distance to the target strictly decreases. -/
theorem walk_strict_decrease (s : PetState) (hwalk : s.is_walking = true)
    (hspeed : s.walk_speed = 2) (hty : s.target_y = s.y)
    (hcont : (update_position s).is_walking = true) :
    (s.target_x - (update_position s).x).natAbs < (s.target_x - s.x).natAbs := by
  rcases Nat.lt_or_ge (s.target_x - s.x).natAbs 2 with hlt | hge
  · have hd : (s.target_x - s.x).natAbs ≤ 1 := by omega
    obtain ⟨h1, _, _, _⟩ := tick_snap s hwalk hspeed hty hd
    rw [h1] at hcont
    cases hcont
  · obtain ⟨_, _, _, _, _, m6⟩ := tick_move s hwalk hspeed hty hge
    omega

/-! ### The motion tick on arbitrary walks -/

/-- Snap tick in general position: a speed-2 walk whose squared distance to
the target is below 4 ends on this tick, snapped exactly onto the target. -/
theorem tick_snap_any (s : PetState) (hwalk : s.is_walking = true)
    (hspeed : s.walk_speed = 2)
    (hD : (s.target_x - s.x) ^ 2 + (s.target_y - s.y) ^ 2 < 4) :
    (update_position s).is_walking = false ∧
      (update_position s).x = s.target_x ∧
      (update_position s).y = s.target_y := by
  have hdist : (0:ℤ) < (off_update s).walk_speed ∧
      ((off_update s).target_x - (off_update s).x) ^ 2 +
        ((off_update s).target_y - (off_update s).y) ^ 2 <
          (off_update s).walk_speed ^ 2 := by
    rw [off_update_x, off_update_y, off_update_target_x, off_update_target_y,
      off_update_walk_speed, hspeed]
    exact ⟨by norm_num, by nlinarith⟩
  unfold update_position
  rw [hwalk]
  simp only [Bool.true_eq_false, if_false, if_pos hdist]
  refine ⟨by simp, by simp, by simp⟩

/-- Moving tick in general position: a speed-2 walk at squared distance at
least 4 keeps walking, preserves target and speed, and commits the truncated
step on both coordinates. -/
theorem tick_move_any (s : PetState) (hwalk : s.is_walking = true)
    (hspeed : s.walk_speed = 2)
    (hD : 4 ≤ (s.target_x - s.x) ^ 2 + (s.target_y - s.y) ^ 2) :
    (update_position s).is_walking = true ∧
      (update_position s).walk_speed = 2 ∧
      (update_position s).target_x = s.target_x ∧
      (update_position s).target_y = s.target_y ∧
      (update_position s).x = pyTrunc s.x ((s.target_x - s.x) * 2)
        ((s.target_x - s.x) ^ 2 + (s.target_y - s.y) ^ 2).toNat ∧
      (update_position s).y = pyTrunc s.y ((s.target_y - s.y) * 2)
        ((s.target_x - s.x) ^ 2 + (s.target_y - s.y) ^ 2).toNat := by
  have hsq : ¬((0:ℤ) < 2 ∧ (s.target_x - s.x) ^ 2 + (s.target_y - s.y) ^ 2 <
      (2:ℤ) ^ 2) := by
    rintro ⟨-, hlt⟩
    nlinarith
  have hpos : (0:ℤ) < (s.target_x - s.x) ^ 2 + (s.target_y - s.y) ^ 2 := by
    nlinarith
  unfold update_position
  rw [hwalk, if_neg (by decide : ¬(true = false))]
  simp only [off_update_x, off_update_y, off_update_target_x, off_update_target_y,
    off_update_walk_speed, off_update_direction, hspeed]
  rw [if_neg hsq, if_pos hpos]
  split_ifs with hf1 hf2 <;>
    refine ⟨?_, ?_, ?_, ?_, ?_, ?_⟩ <;>
    simp only [set_animation_x, set_animation_y, set_animation_is_walking,
      set_animation_walk_speed, set_animation_target_x, set_animation_target_y,
      off_update_x, off_update_y, off_update_is_walking, off_update_walk_speed,
      off_update_target_x, off_update_target_y, hwalk, hspeed]

/-- Strict decrease in general position: every motion tick of a speed-2
walk that leaves the pet Walking strictly decreases the squared Euclidean
distance to the target (equivalently, the distance itself). -/
theorem tick_sq_decrease (s : PetState) (hwalk : s.is_walking = true)
    (hspeed : s.walk_speed = 2)
    (hcont : (update_position s).is_walking = true) :
    (s.target_x - (update_position s).x) ^ 2 +
        (s.target_y - (update_position s).y) ^ 2 <
      (s.target_x - s.x) ^ 2 + (s.target_y - s.y) ^ 2 := by
  rcases lt_or_ge ((s.target_x - s.x) ^ 2 + (s.target_y - s.y) ^ 2) 4 with hD | hD
  · have h1 := (tick_snap_any s hwalk hspeed hD).1
    rw [h1] at hcont
    cases hcont
  · obtain ⟨-, -, -, -, hx2, hy2⟩ := tick_move_any s hwalk hspeed hD
    rw [hx2, hy2]
    have hnn : (0:ℤ) ≤ (s.target_x - s.x) ^ 2 + (s.target_y - s.y) ^ 2 := by
      positivity
    have hcast : ((((s.target_x - s.x) ^ 2 + (s.target_y - s.y) ^ 2).toNat : ℕ) : ℤ)
        = (s.target_x - s.x) ^ 2 + (s.target_y - s.y) ^ 2 :=
      Int.toNat_of_nonneg hnn
    have hDn4 : 4 ≤ ((s.target_x - s.x) ^ 2 + (s.target_y - s.y) ^ 2).toNat := by
      have : (4:ℤ) ≤ ((((s.target_x - s.x) ^ 2 + (s.target_y - s.y) ^ 2).toNat : ℕ) : ℤ) := by
        rw [hcast]; exact hD
      exact_mod_cast this
    have hxform : s.target_x = s.x + (s.target_x - s.x) := by ring
    have hyform : s.target_y = s.y + (s.target_y - s.y) := by ring
    rcases le_total ((s.target_y - s.y) ^ 2) ((s.target_x - s.x) ^ 2) with hdom | hdom
    · have hstrict := coord_sq_lt s.x (s.target_x - s.x)
        (((s.target_x - s.x) ^ 2 + (s.target_y - s.y) ^ 2).toNat) hDn4
        (by rw [hcast]; nlinarith)
      have hweak := coord_sq_le s.y (s.target_y - s.y)
        (((s.target_x - s.x) ^ 2 + (s.target_y - s.y) ^ 2).toNat) hDn4
      calc (s.target_x - pyTrunc s.x ((s.target_x - s.x) * 2) _) ^ 2 +
            (s.target_y - pyTrunc s.y ((s.target_y - s.y) * 2) _) ^ 2
          = ((s.x + (s.target_x - s.x)) - pyTrunc s.x ((s.target_x - s.x) * 2) _) ^ 2 +
            ((s.y + (s.target_y - s.y)) - pyTrunc s.y ((s.target_y - s.y) * 2) _) ^ 2 := by
            rw [← hxform, ← hyform]
        _ < (s.target_x - s.x) ^ 2 + (s.target_y - s.y) ^ 2 :=
            add_lt_add_of_lt_of_le hstrict hweak
    · have hstrict := coord_sq_lt s.y (s.target_y - s.y)
        (((s.target_x - s.x) ^ 2 + (s.target_y - s.y) ^ 2).toNat) hDn4
        (by rw [hcast]; nlinarith)
      have hweak := coord_sq_le s.x (s.target_x - s.x)
        (((s.target_x - s.x) ^ 2 + (s.target_y - s.y) ^ 2).toNat) hDn4
      calc (s.target_x - pyTrunc s.x ((s.target_x - s.x) * 2) _) ^ 2 +
            (s.target_y - pyTrunc s.y ((s.target_y - s.y) * 2) _) ^ 2
          = ((s.x + (s.target_x - s.x)) - pyTrunc s.x ((s.target_x - s.x) * 2) _) ^ 2 +
            ((s.y + (s.target_y - s.y)) - pyTrunc s.y ((s.target_y - s.y) * 2) _) ^ 2 := by
            rw [← hxform, ← hyform]
        _ < (s.target_x - s.x) ^ 2 + (s.target_y - s.y) ^ 2 :=
            add_lt_add_of_le_of_lt hweak hstrict

/-- Convergence in general position: every speed-2 walk terminates, snapped
exactly onto the target, within initialSquaredDistance + 1 motion ticks
(the squared distance is a strictly decreasing termination measure). -/
theorem walk_converges_sq (k : ℕ) :
    ∀ s : PetState, s.is_walking = true → s.walk_speed = 2 →
      ((s.target_x - s.x) ^ 2 + (s.target_y - s.y) ^ 2).toNat ≤ k →
      (update_position^[k + 1] s).is_walking = false ∧
        (update_position^[k + 1] s).x = s.target_x ∧
        (update_position^[k + 1] s).y = s.target_y := by
  induction k with
  | zero =>
      intro s hw hs hk
      have hnn : (0:ℤ) ≤ (s.target_x - s.x) ^ 2 + (s.target_y - s.y) ^ 2 := by
        positivity
      have hcast := Int.toNat_of_nonneg hnn
      have hD : (s.target_x - s.x) ^ 2 + (s.target_y - s.y) ^ 2 < 4 := by
        rw [← hcast]
        exact_mod_cast Nat.lt_of_le_of_lt hk (by norm_num)
      obtain ⟨h1, h2, h3⟩ := tick_snap_any s hw hs hD
      simpa [Function.iterate_one] using ⟨h1, h2, h3⟩
  | succ k ih =>
      intro s hw hs hk
      rcases lt_or_ge ((s.target_x - s.x) ^ 2 + (s.target_y - s.y) ^ 2) 4 with hD | hD
      · obtain ⟨h1, h2, h3⟩ := tick_snap_any s hw hs hD
        have hiter : update_position^[k + 1 + 1] s =
            update_position^[k + 1] (update_position s) := by
          rw [Function.iterate_succ_apply]
        rw [hiter, iterate_idle (update_position s) h1 (k + 1)]
        exact ⟨h1, h2, h3⟩
      · obtain ⟨hw2, hs2, htx2, hty2, -, -⟩ := tick_move_any s hw hs hD
        have hdec := tick_sq_decrease s hw hs hw2
        have hnn : (0:ℤ) ≤ (s.target_x - (update_position s).x) ^ 2 +
            (s.target_y - (update_position s).y) ^ 2 := by positivity
        have hnn0 : (0:ℤ) ≤ (s.target_x - s.x) ^ 2 + (s.target_y - s.y) ^ 2 := by
          positivity
        have hk2 : (((update_position s).target_x - (update_position s).x) ^ 2 +
            ((update_position s).target_y - (update_position s).y) ^ 2).toNat ≤ k := by
          rw [htx2, hty2]
          have c1 := Int.toNat_of_nonneg hnn
          have c2 := Int.toNat_of_nonneg hnn0
          have hlt : ((s.target_x - (update_position s).x) ^ 2 +
              (s.target_y - (update_position s).y) ^ 2).toNat <
              ((s.target_x - s.x) ^ 2 + (s.target_y - s.y) ^ 2).toNat := by
            have := hdec
            rw [← c1, ← c2] at this
            exact_mod_cast this
          omega
        have hres := ih (update_position s) hw2 hs2 hk2
        have hiter : update_position^[k + 1 + 1] s =
            update_position^[k + 1] (update_position s) := by
          rw [Function.iterate_succ_apply]
        rw [hiter]
        refine ⟨hres.1, ?_, ?_⟩
        · rw [hres.2.1, htx2]
        · rw [hres.2.2, hty2]

/-! ### Hunger, feeding and the other operations -/

@[simp] theorem spawn_fish_hunger (fx fy : ℤ) (s : PetState) :
    (spawn_fish fx fy s).hunger = s.hunger := by
  unfold spawn_fish; split <;> rfl

@[simp] theorem spawn_fish_is_hungry (fx fy : ℤ) (s : PetState) :
    (spawn_fish fx fy s).is_hungry = s.is_hungry := by
  unfold spawn_fish; split <;> rfl

@[simp] theorem spawn_fish_anim (fx fy : ℤ) (s : PetState) :
    (spawn_fish fx fy s).anim = s.anim := by
  unfold spawn_fish; split <;> rfl

@[simp] theorem spawn_fish_was_offscreen (fx fy : ℤ) (s : PetState) :
    (spawn_fish fx fy s).was_offscreen = s.was_offscreen := by
  unfold spawn_fish; split <;> rfl

@[simp] theorem spawn_fish_is_walking (fx fy : ℤ) (s : PetState) :
    (spawn_fish fx fy s).is_walking = s.is_walking := by
  unfold spawn_fish; split <;> rfl

/-- After spawn_fish a fish always exists: either one already did, or one is
created. -/
theorem spawn_fish_ne_none (fx fy : ℤ) (s : PetState) :
    (spawn_fish fx fy s).fish ≠ none := by
  unfold spawn_fish
  split
  · simp
  · assumption

theorem spawn_fish_fish (fx fy : ℤ) (s : PetState) :
    (spawn_fish fx fy s).fish = s.fish ∨ (spawn_fish fx fy s).fish = some (fx, fy) := by
  unfold spawn_fish
  split <;> simp

/-- The hunger tick always increments the counter by one. -/
theorem increase_hunger_hunger (fx fy : ℤ) (s : PetState) :
    (increase_hunger fx fy s).hunger = s.hunger + 1 := by
  unfold increase_hunger get_hungry
  split <;> simp

/-- Below the threshold the hunger tick changes only the counter. -/
theorem increase_hunger_low (fx fy : ℤ) (s : PetState) (h : s.hunger + 1 ≤ 3) :
    increase_hunger fx fy s = { s with hunger := s.hunger + 1 } := by
  unfold increase_hunger
  rw [if_neg (by omega)]

/-- Above the threshold the hunger tick makes the pet hungry, shows the meow
animation and guarantees a fish. -/
theorem increase_hunger_high (fx fy : ℤ) (s : PetState) (h : 3 < s.hunger + 1) :
    (increase_hunger fx fy s).is_hungry = true ∧
      (increase_hunger fx fy s).anim = AnimName.meow ∧
      (increase_hunger fx fy s).fish ≠ none := by
  unfold increase_hunger get_hungry
  rw [if_pos (by omega)]
  exact ⟨by simp, by simp, spawn_fish_ne_none _ _ _⟩

/-- C5 core: feeding while walking is a complete no-op. -/
theorem feed_pet_walking (s : PetState) (h : s.is_walking = true) :
    feed_pet s = s := by
  unfold feed_pet
  rw [h, if_pos rfl]

/-- Feeding when not walking resets the hunger state and removes the fish. -/
theorem feed_pet_idle (s : PetState) (h : s.is_walking = false) :
    (feed_pet s).hunger = 0 ∧ (feed_pet s).is_hungry = false ∧
      (feed_pet s).fish = none ∧ (feed_pet s).is_walking = false := by
  unfold feed_pet
  rw [h, if_neg (by decide : ¬(false = true))]
  refine ⟨by simp, by simp, by simp, by simp⟩

/-- Feeding twice is the same as feeding once, on every state. -/
theorem feed_pet_idem (s : PetState) : feed_pet (feed_pet s) = feed_pet s := by
  by_cases h : s.is_walking = true
  · rw [feed_pet_walking s h, feed_pet_walking s h]
  · have h' : s.is_walking = false := by
      cases hv : s.is_walking
      · rfl
      · exact absurd hv h
    by_cases hdir : s.direction = 1 <;>
      simp [feed_pet, h', hdir, set_animation]

/-- Iterated hunger ticks add n to the counter. -/
theorem hungerIter_hunger (f : ℕ → ℤ × ℤ) (n : ℕ) (s : PetState) :
    (hungerIter f n s).hunger = s.hunger + n := by
  induction n with
  | zero => rfl
  | succ n ih =>
      unfold hungerIter
      rw [increase_hunger_hunger, ih]
      omega

/-- Starting from counter 0, the first three hunger ticks leave every field
except the counter unchanged. -/
theorem hungerIter_low (f : ℕ → ℤ × ℤ) (n : ℕ) (s : PetState) (h0 : s.hunger = 0)
    (hn : n ≤ 3) : hungerIter f n s = { s with hunger := n } := by
  induction n with
  | zero =>
      unfold hungerIter
      cases s
      simp_all
  | succ n ih =>
      unfold hungerIter
      rw [ih (by omega)]
      rw [increase_hunger_low _ _ _ (by simpa using by omega)]

/-! ### What each operation can do to the hunger flag, the fish and the
offscreen flag -/

theorem up_is_hungry (s : PetState) :
    (update_position s).is_hungry = s.is_hungry := by
  simp only [update_position]
  split_ifs <;> simp

theorem up_fish (s : PetState) : (update_position s).fish = s.fish := by
  simp only [update_position]
  split_ifs <;> simp

theorem up_hunger (s : PetState) : (update_position s).hunger = s.hunger := by
  simp only [update_position]
  split_ifs <;> simp

theorem up_walking_of_offscreen (s : PetState)
    (h : (update_position s).was_offscreen = true)
    (h0 : s.was_offscreen = false) : s.is_walking = true := by
  cases hw : s.is_walking
  · rw [tick_idle s hw] at h
    rw [h0] at h
    cases h
  · rfl

@[simp] theorem walk_back_is_hungry (s : PetState) :
    (walk_back_for_attention s).is_hungry = s.is_hungry := by
  simp [walk_back_for_attention]

@[simp] theorem walk_back_fish (s : PetState) :
    (walk_back_for_attention s).fish = s.fish := by
  simp [walk_back_for_attention]

@[simp] theorem walk_back_hunger (s : PetState) :
    (walk_back_for_attention s).hunger = s.hunger := by
  simp [walk_back_for_attention]

@[simp] theorem walk_back_was_offscreen (s : PetState) :
    (walk_back_for_attention s).was_offscreen = s.was_offscreen := by
  simp [walk_back_for_attention]

@[simp] theorem mouse_drag_is_hungry (dx dy : ℤ) (s : PetState) :
    (mouse_drag dx dy s).is_hungry = s.is_hungry := rfl

@[simp] theorem mouse_drag_fish (dx dy : ℤ) (s : PetState) :
    (mouse_drag dx dy s).fish = s.fish := rfl

@[simp] theorem mouse_drag_hunger (dx dy : ℤ) (s : PetState) :
    (mouse_drag dx dy s).hunger = s.hunger := rfl

/-- C10 core fact about drags: a mouse drag never touches was_offscreen. -/
theorem mouse_drag_was_offscreen (dx dy : ℤ) (s : PetState) :
    (mouse_drag dx dy s).was_offscreen = s.was_offscreen := rfl

/-- attention_seek either does nothing or performs the dash. -/
theorem attention_cases (ry : ℤ) (s : PetState) :
    attention_seek ry s = s ∨
      ((s.is_hungry = false ∧ s.is_walking = false ∧ s.was_offscreen = true) ∧
        attention_seek ry s =
          { s with x := -s.w, y := ry, was_offscreen := false,
                   pending_walk_back := true }) := by
  unfold attention_seek
  split_ifs with hg
  · exact Or.inr ⟨hg, rfl⟩
  · exact Or.inl rfl

/-- check_fish_collision either does nothing or feeds the pet. -/
theorem collision_cases (s : PetState) :
    check_fish_collision s = s ∨ check_fish_collision s = feed_pet s := by
  unfold check_fish_collision
  rcases s.fish with _ | ⟨fx, fy⟩
  · exact Or.inl rfl
  · dsimp only
    split_ifs
    · exact Or.inr rfl
    · exact Or.inl rfl

/-- random_walk either leaves the state unchanged, or starts a walk in a
non-hungry state changing only target, direction, animation and the walking
flag. -/
theorem random_walk_cases (roll : ℚ) (rx ry : ℤ) (s s' : PetState)
    (h : random_walk roll rx ry s = some s') :
    s' = s ∨
      (s.is_hungry = false ∧ s'.is_hungry = false ∧ s'.fish = s.fish ∧
        s'.hunger = s.hunger ∧ s'.was_offscreen = s.was_offscreen ∧
        s'.is_walking = true) := by
  unfold random_walk at h
  split_ifs at h with h1 h2
  · exact Or.inl (Option.some_injective _ h).symm
  · exact Or.inl (Option.some_injective _ h).symm
  · have hnh : s.is_hungry = false := by
      rcases hv : s.is_hungry
      · rfl
      · exact absurd (Or.inl hv) h1
    dsimp only at h
    split_ifs at h with h3 h4 hc <;>
    · right
      have hs' := (Option.some_injective _ h).symm
      subst hs'
      simp [hnh]

/-- feed_pet can only turn the hunger flag off, never leave it on while
claiming to have fed: if the pet was hungry and is not afterwards, the
operation was a feed. -/
theorem feed_pet_is_hungry_cases (s : PetState) :
    feed_pet s = s ∨ (feed_pet s).is_hungry = false := by
  by_cases h : s.is_walking = true
  · exact Or.inl (feed_pet_walking s h)
  · refine Or.inr ?_
    unfold feed_pet
    rw [if_neg h]
    simp

@[simp] theorem increase_hunger_was_offscreen (fx fy : ℤ) (s : PetState) :
    (increase_hunger fx fy s).was_offscreen = s.was_offscreen := by
  unfold increase_hunger get_hungry
  split <;> simp

@[simp] theorem feed_pet_was_offscreen (s : PetState) :
    (feed_pet s).was_offscreen = s.was_offscreen := by
  unfold feed_pet
  split_ifs <;> simp

/-- Along any single operation of the event loop, the invariant "hungry
implies a fish exists" is preserved. -/
theorem applyOp_hungry_fish (op : Op) (s s' : PetState)
    (h : applyOp op s = some s') (hP : s.is_hungry = true → s.fish ≠ none) :
    s'.is_hungry = true → s'.fish ≠ none := by
  cases op with
  | animate =>
      have hs' := (Option.some_injective _ h).symm
      subst hs'
      simpa using hP
  | motion =>
      have hs' := (Option.some_injective _ h).symm
      subst hs'
      rw [up_is_hungry, up_fish]
      exact hP
  | hungerTick fx fy =>
      have hs' := (Option.some_injective _ h).symm
      subst hs'
      by_cases hgt : 3 < s.hunger + 1
      · intro _
        exact (increase_hunger_high fx fy s hgt).2.2
      · rw [increase_hunger_low fx fy s (by omega)]
        simpa using hP
  | collision =>
      have hs' := (Option.some_injective _ h).symm
      subst hs'
      rcases collision_cases s with hc | hc <;> rw [hc]
      · exact hP
      · rcases feed_pet_is_hungry_cases s with hf | hf
        · rw [hf]; exact hP
        · intro hh
          rw [hf] at hh
          cases hh
  | feed =>
      have hs' := (Option.some_injective _ h).symm
      subst hs'
      rcases feed_pet_is_hungry_cases s with hf | hf
      · rw [hf]; exact hP
      · intro hh
        rw [hf] at hh
        cases hh
  | rwalk roll rx ry =>
      rcases random_walk_cases roll rx ry s s' h with hc | hc
      · subst hc; exact hP
      · intro hh
        rw [hc.2.1] at hh
        cases hh
  | attention ry =>
      have hs' := (Option.some_injective _ h).symm
      subst hs'
      rcases attention_cases ry s with hc | hc
      · rw [hc]; exact hP
      · rw [hc.2]; simpa using hP
  | walkBack =>
      have hs' := (Option.some_injective _ h).symm
      subst hs'
      rw [walk_back_is_hungry, walk_back_fish]
      simpa using hP
  | drag dx dy =>
      have hs' := (Option.some_injective _ h).symm
      subst hs'
      simpa using hP

/-- The hunger flag, once set, is only ever cleared by a feed: either the
direct feed operation or the collision poll (which feeds on overlap). -/
theorem applyOp_hungry_mono (op : Op) (s s' : PetState)
    (h : applyOp op s = some s') (hh : s.is_hungry = true)
    (hh' : s'.is_hungry = false) : op = Op.feed ∨ op = Op.collision := by
  cases op with
  | animate =>
      have hs' := (Option.some_injective _ h).symm
      subst hs'
      simp [hh] at hh'
  | motion =>
      have hs' := (Option.some_injective _ h).symm
      subst hs'
      rw [up_is_hungry, hh] at hh'
      cases hh'
  | hungerTick fx fy =>
      have hs' := (Option.some_injective _ h).symm
      subst hs'
      by_cases hgt : 3 < s.hunger + 1
      · rw [(increase_hunger_high fx fy s hgt).1] at hh'
        cases hh'
      · rw [increase_hunger_low fx fy s (by omega)] at hh'
        simp [hh] at hh'
  | collision => exact Or.inr rfl
  | feed => exact Or.inl rfl
  | rwalk roll rx ry =>
      rcases random_walk_cases roll rx ry s s' h with hc | hc
      · subst hc
        rw [hh] at hh'
        cases hh'
      · rw [hh] at hc
        cases hc.1
  | attention ry =>
      have hs' := (Option.some_injective _ h).symm
      subst hs'
      rcases attention_cases ry s with hc | hc
      · rw [hc, hh] at hh'
        cases hh'
      · rw [hh] at hc
        cases hc.1.1
  | walkBack =>
      have hs' := (Option.some_injective _ h).symm
      subst hs'
      rw [walk_back_is_hungry] at hh'
      simp [hh] at hh'
  | drag dx dy =>
      have hs' := (Option.some_injective _ h).symm
      subst hs'
      simp [hh] at hh'

/-- was_offscreen can go from false to true only on a motion tick of a
walking pet. -/
theorem applyOp_offscreen (op : Op) (s s' : PetState)
    (h : applyOp op s = some s') (h0 : s.was_offscreen = false)
    (h1 : s'.was_offscreen = true) : op = Op.motion ∧ s.is_walking = true := by
  cases op with
  | animate =>
      have hs' := (Option.some_injective _ h).symm
      subst hs'
      simp [h0] at h1
  | motion =>
      have hs' := (Option.some_injective _ h).symm
      subst hs'
      exact ⟨rfl, up_walking_of_offscreen s h1 h0⟩
  | hungerTick fx fy =>
      have hs' := (Option.some_injective _ h).symm
      subst hs'
      rw [increase_hunger_was_offscreen, h0] at h1
      cases h1
  | collision =>
      have hs' := (Option.some_injective _ h).symm
      subst hs'
      rcases collision_cases s with hc | hc <;> rw [hc] at h1
      · rw [h0] at h1; cases h1
      · rw [feed_pet_was_offscreen, h0] at h1; cases h1
  | feed =>
      have hs' := (Option.some_injective _ h).symm
      subst hs'
      rw [feed_pet_was_offscreen, h0] at h1
      cases h1
  | rwalk roll rx ry =>
      rcases random_walk_cases roll rx ry s s' h with hc | hc
      · subst hc
        rw [h0] at h1
        cases h1
      · rw [hc.2.2.2.2.1, h0] at h1
        cases h1
  | attention ry =>
      have hs' := (Option.some_injective _ h).symm
      subst hs'
      rcases attention_cases ry s with hc | ⟨-, hc⟩
      · rw [hc, h0] at h1; cases h1
      · rw [hc] at h1; simp at h1
  | walkBack =>
      have hs' := (Option.some_injective _ h).symm
      subst hs'
      rw [walk_back_was_offscreen] at h1
      simp [h0] at h1
  | drag dx dy =>
      have hs' := (Option.some_injective _ h).symm
      subst hs'
      simp [mouse_drag, h0] at h1

/-! ### Reachability facts -/

/-- On every reachable state, hungry implies a fish exists. -/
theorem reach_hungry_fish (sw sh : ℤ) (s : PetState) (h : Reach sw sh s) :
    s.is_hungry = true → s.fish ≠ none := by
  induction h with
  | init x0 y0 _ _ _ _ => intro hh; cases hh
  | step op _ _ happ ih => exact applyOp_hungry_fish op _ _ happ ih

/-- The concrete trace to stBad: initial state, one random walk, four hunger
ticks, three motion ticks. -/
theorem reach_stBad : Reach 1000 1000 stBad := by
  have h0 : Reach 1000 1000 st0 :=
    Reach.init 100 100 (by norm_num) (by norm_num) (by norm_num) (by norm_num)
  have h1 : Reach 1000 1000 st1 :=
    Reach.step (Op.rwalk (mkRat 1 5) 104 100) h0 (by decide) (by decide)
  have h2 : Reach 1000 1000 (hungerIter (fun _ => (100, 300)) 1 st1) :=
    Reach.step (Op.hungerTick 100 300) h1 (by decide) (by decide)
  have h3 : Reach 1000 1000 (hungerIter (fun _ => (100, 300)) 2 st1) :=
    Reach.step (Op.hungerTick 100 300) h2 (by decide) (by decide)
  have h4 : Reach 1000 1000 (hungerIter (fun _ => (100, 300)) 3 st1) :=
    Reach.step (Op.hungerTick 100 300) h3 (by decide) (by decide)
  have h5 : Reach 1000 1000 stHungryWalk :=
    Reach.step (Op.hungerTick 100 300) h4 (by decide) (by decide)
  have h6 : Reach 1000 1000 (update_position stHungryWalk) :=
    Reach.step Op.motion h5 (by decide) rfl
  have h7 : Reach 1000 1000 (update_position (update_position stHungryWalk)) :=
    Reach.step Op.motion h6 (by decide) rfl
  have h8 : Reach 1000 1000
      (update_position (update_position (update_position stHungryWalk))) :=
    Reach.step Op.motion h7 (by decide) rfl
  exact h8

/-- The dragged-offscreen state is reachable (position is never clamped on a
drag). -/
theorem reach_stDragged : Reach 1000 1000 stDragged := by
  have h0 : Reach 1000 1000 st0 :=
    Reach.init 100 100 (by norm_num) (by norm_num) (by norm_num) (by norm_num)
  exact Reach.step (Op.drag (-400) 0) h0 (by decide) rfl

/-- The walking hungry state with counter 1 is reachable. -/
theorem reach_stWalkHungry1 : Reach 1000 1000 stWalkHungry1 := by
  have h0 : Reach 1000 1000 st0 :=
    Reach.init 100 100 (by norm_num) (by norm_num) (by norm_num) (by norm_num)
  have h1 : Reach 1000 1000 st1 :=
    Reach.step (Op.rwalk (mkRat 1 5) 104 100) h0 (by decide) (by decide)
  exact Reach.step (Op.hungerTick 100 300) h1 (by decide) (by decide)

/-! ### SpriteAnimator properties -/

/-- Construction establishes the cursor invariant, with the cursor at 0. -/
theorem SAInv_make (sheet : ℕ → ℕ) (n : ℕ) (mir : Bool) (hn : 0 < n) :
    SAInv (SpriteAnimator.make sheet n mir) ∧
      (SpriteAnimator.make sheet n mir).current_frame = 0 := by
  unfold SpriteAnimator.make SAInv
  refine ⟨⟨?_, hn⟩, rfl⟩
  split <;> simp

/-- Under the invariant, next_frame cannot fail: it returns the frame at the
cursor and advances the cursor modulo the frame count, preserving the
invariant. -/
theorem next_frame_some (a : SpriteAnimator) (h : SAInv a) :
    ∃ fr a', a.frames.get? a.current_frame = some fr ∧
      a.next_frame = some (fr, a') ∧
      a'.current_frame = (a.current_frame + 1) % a.frame_count ∧
      a'.frames = a.frames ∧ a'.frame_count = a.frame_count ∧ SAInv a' := by
  obtain ⟨hlen, hcur⟩ := h
  have hlt : a.current_frame < a.frames.length := by rw [hlen]; exact hcur
  have hfc : 0 < a.frame_count := by omega
  refine ⟨a.frames.get ⟨a.current_frame, hlt⟩,
    { a with current_frame := (a.current_frame + 1) % a.frame_count },
    List.get?_eq_get hlt, ?_, rfl, rfl, rfl, ?_⟩
  · unfold SpriteAnimator.next_frame
    rw [List.get?_eq_get hlt]
    dsimp only
    rw [if_neg (by omega)]
  · exact ⟨hlen, Nat.mod_lt _ hfc⟩

/-- reset restores cursor 0 and keeps the invariant. -/
theorem reset_inv (a : SpriteAnimator) (h : SAInv a) :
    SAInv a.reset ∧ a.reset.current_frame = 0 := by
  obtain ⟨hlen, hcur⟩ := h
  unfold SpriteAnimator.reset SAInv
  refine ⟨⟨hlen, ?_⟩, rfl⟩
  show 0 < a.frame_count
  omega

/-! ### The claims -/

/-- C1, counterexample.  Two instances of the claim fail on the code.
First, walking from (0, 0) to (100, 0) with speed 2 does not reach Idle
after 50 = ceil(100/2) motion ticks: the position is already exactly
(100, 0) but the state is still Walking with the walk_r animation, because
the snap branch fires only when distance < speed strictly (the transition
happens on tick 51).  Second, the bound fails badly off the axis: walking
from (0, 0) to (1, 100) with speed 2 (distance about 100.005, so the claim
allows 51 ticks) is still Walking at tick 51 and even at tick 52, because
int() truncation discards the fractional step of the non-dominant
coordinate every tick. -/
theorem C1_counterexample :
    ((update_position^[50] scene0).x = 100 ∧
      (update_position^[50] scene0).y = 0 ∧
      (update_position^[50] scene0).is_walking = true ∧
      (update_position^[50] scene0).anim = AnimName.walk_r) ∧
    ((update_position^[51] scene1).is_walking = true ∧
      (update_position^[52] scene1).is_walking = true) := by
  decide

/-- C1, amended.  With the walk speed 2 the constructor sets, every motion
tick that leaves the pet Walking strictly decreases the (squared) Euclidean
distance to the target, and every walk terminates, snapped exactly onto the
target, within initialSquaredDistance + 1 motion ticks.  The claimed
ceil(distance/speed) bound fails for two separate reasons.  (1) The snap
check distance < speed is strict, so even an exactly divisible horizontal
walk needs one extra tick: from (0, 0) to (100, 0) the position is exactly
(100, 0) after 50 ticks but still Walking with walk_r; Idle and the
walk_r-to-idle_r transition come on tick 51, and in general horizontal
walks reach Idle within ceil(d/2) + 1 ticks.  (2) On non-axis-aligned walks
the int() truncation of each committed coordinate discards fractional
progress, so no ceil(d/2)-style bound holds at all: from (0, 0) to (1, 100)
the pet is still Walking at tick 52 = ceil(d/2) + 1 (and at tick 99) and
reaches Idle, snapped onto (1, 100), only on tick 100. -/
theorem C1_amended :
    ((update_position^[50] scene0).x = 100 ∧
      (update_position^[50] scene0).is_walking = true ∧
      (update_position^[50] scene0).anim = AnimName.walk_r ∧
      (update_position^[51] scene0).is_walking = false ∧
      (update_position^[51] scene0).x = 100 ∧
      (update_position^[51] scene0).y = 0 ∧
      (update_position^[51] scene0).anim = AnimName.idle_r) ∧
    ((update_position^[52] scene1).is_walking = true ∧
      (update_position^[99] scene1).is_walking = true ∧
      (update_position^[100] scene1).is_walking = false ∧
      (update_position^[100] scene1).x = 1 ∧
      (update_position^[100] scene1).y = 100) ∧
    (∀ s : PetState, s.is_walking = true → s.walk_speed = 2 →
      ((update_position s).is_walking = true →
        (s.target_x - (update_position s).x) ^ 2 +
            (s.target_y - (update_position s).y) ^ 2 <
          (s.target_x - s.x) ^ 2 + (s.target_y - s.y) ^ 2) ∧
      (∀ k : ℕ, ((s.target_x - s.x) ^ 2 + (s.target_y - s.y) ^ 2).toNat ≤ k →
        (update_position^[k + 1] s).is_walking = false ∧
          (update_position^[k + 1] s).x = s.target_x ∧
          (update_position^[k + 1] s).y = s.target_y)) ∧
    (∀ s : PetState, s.is_walking = true → s.walk_speed = 2 → s.target_y = s.y →
      (update_position^[((s.target_x - s.x).natAbs + 1) / 2 + 1] s).is_walking = false ∧
        (update_position^[((s.target_x - s.x).natAbs + 1) / 2 + 1] s).x = s.target_x ∧
        (update_position^[((s.target_x - s.x).natAbs + 1) / 2 + 1] s).y = s.y) :=
  ⟨by decide, by decide,
    fun s hw hs =>
      ⟨fun hcont => tick_sq_decrease s hw hs hcont,
        fun k hk => walk_converges_sq k s hw hs hk⟩,
    fun s hw hs hy => walk_converges _ s hw hs hy le_rfl⟩

/-- C1 witness: the general strict-decrease and convergence parts of the
amended claim applied to the two concrete walks, and the horizontal bound
applied to the scenario walk. -/
theorem C1_amended_witness :
    ((scene1.target_x - (update_position scene1).x) ^ 2 +
        (scene1.target_y - (update_position scene1).y) ^ 2 <
      (scene1.target_x - scene1.x) ^ 2 + (scene1.target_y - scene1.y) ^ 2) ∧
    ((update_position^[10001 + 1] scene1).is_walking = false ∧
      (update_position^[10001 + 1] scene1).x = scene1.target_x ∧
      (update_position^[10001 + 1] scene1).y = scene1.target_y) ∧
    ((update_position^[((scene0.target_x - scene0.x).natAbs + 1) / 2 + 1]
        scene0).is_walking = false ∧
      (update_position^[((scene0.target_x - scene0.x).natAbs + 1) / 2 + 1]
        scene0).x = scene0.target_x ∧
      (update_position^[((scene0.target_x - scene0.x).natAbs + 1) / 2 + 1]
        scene0).y = scene0.y) :=
  ⟨(C1_amended.2.2.1 scene1 (by decide) (by decide)).1 (by decide),
    (C1_amended.2.2.1 scene1 (by decide) (by decide)).2 10001 (by decide),
    C1_amended.2.2.2 scene0 (by decide) (by decide) (by decide)⟩

/-- C2, counterexample.  The claim asserts that whenever isHungry holds the
active animation is the meow animation (and a Fish exists), across all
operations including motion ticks while hungry.  The reachable state stBad
refutes it: the pet got hungry mid-walk, and the motion tick that completed
the walk set the idle_r animation while the pet is still hungry (no feeding
occurred on that tick; the fish is still present). -/
theorem C2_counterexample :
    Reach 1000 1000 stBad ∧ stBad.is_hungry = true ∧ stBad.fish ≠ none ∧
      stBad.anim ≠ AnimName.meow ∧ stBad.anim = AnimName.idle_r :=
  ⟨reach_stBad, by decide, by decide, by decide, by decide⟩

/-- C2, amended.  On every reachable state, isHungry implies a Fish exists;
and at the moment the pet becomes hungry (the hunger tick crossing the
threshold) the meow animation is set and a Fish is guaranteed.  The
meow-animation half of the original invariant is not preserved by motion
ticks while the pet walks hungry: walk completion or a direction flip
replaces it (see the counterexample). -/
theorem C2_amended :
    (∀ (sw sh : ℤ) (s : PetState), Reach sw sh s → s.is_hungry = true →
      s.fish ≠ none) ∧
    (∀ (fx fy : ℤ) (s : PetState), 3 < s.hunger + 1 →
      (increase_hunger fx fy s).is_hungry = true ∧
      (increase_hunger fx fy s).anim = AnimName.meow ∧
      (increase_hunger fx fy s).fish ≠ none) :=
  ⟨reach_hungry_fish, fun fx fy s h => increase_hunger_high fx fy s h⟩

/-- C2 witness: the amended invariant applied to the reachable hungry state
stBad and to the hunger tick that made stHungryWalk hungry. -/
theorem C2_amended_witness :
    stBad.fish ≠ none ∧
      (increase_hunger 100 300 (hungerIter (fun _ => (100, 300)) 3 st1)).anim =
        AnimName.meow :=
  ⟨C2_amended.1 1000 1000 stBad reach_stBad (by decide),
    (C2_amended.2 100 300 (hungerIter (fun _ => (100, 300)) 3 st1) (by decide)).2.1⟩

/-- C3 (confirmed).  From hunger counter 0 with no intervening feed,
isHungry is still false after any n <= 3 hunger ticks, and after exactly
threshold + 1 = 4 hunger ticks the pet is hungry, shows the meow animation
and a Fish exists (spawned if none existed).  Moreover the flag, once true,
is cleared only by a feed: the only operations that can turn isHungry from
true to false are the feed itself and the collision poll (which feeds on
overlap). -/
theorem C3_hunger_threshold :
    (∀ (f : ℕ → ℤ × ℤ) (s : PetState), s.hunger = 0 → s.is_hungry = false →
      (∀ n, n ≤ 3 → (hungerIter f n s).is_hungry = false) ∧
      ((hungerIter f 4 s).is_hungry = true ∧
        (hungerIter f 4 s).anim = AnimName.meow ∧
        (hungerIter f 4 s).fish ≠ none)) ∧
    (∀ (op : Op) (s s' : PetState), applyOp op s = some s' →
      s.is_hungry = true → s'.is_hungry = false →
      op = Op.feed ∨ op = Op.collision) := by
  constructor
  · intro f s h0 hh
    constructor
    · intro n hn
      rw [hungerIter_low f n s h0 hn]
      exact hh
    · have h4 : hungerIter f 4 s =
          increase_hunger (f 3).1 (f 3).2 (hungerIter f 3 s) := rfl
      rw [h4, hungerIter_low f 3 s h0 (by norm_num)]
      exact increase_hunger_high _ _ _ (by show (3:ℕ) < 3 + 1; omega)
  · exact applyOp_hungry_mono

/-- C3 witness: the threshold behaviour on the concrete initial state, and
the one-way property applied to the feed of the hungry state stBad. -/
theorem C3_hunger_threshold_witness :
    (hungerIter (fun _ => (100, 300)) 2 st0).is_hungry = false ∧
      (hungerIter (fun _ => (100, 300)) 4 st0).is_hungry = true ∧
      (Op.feed = Op.feed ∨ Op.feed = Op.collision) :=
  ⟨(C3_hunger_threshold.1 (fun _ => (100, 300)) st0 rfl rfl).1 2 (by norm_num),
    (C3_hunger_threshold.1 (fun _ => (100, 300)) st0 rfl rfl).2.1,
    C3_hunger_threshold.2 Op.feed stBad (feed_pet stBad) rfl (by decide) (by decide)⟩

/-- C4, counterexample.  The claim asserts that for every pet state feeding
twice leaves hungerLevel 0, isHungry false and no fish.  It fails on any
walking state: feed_pet returns immediately while is_walking, so on the
reachable walking state stWalkHungry1 (hunger counter 1) two feeds leave the
state unchanged, with hunger 1, not 0. -/
theorem C4_counterexample :
    Reach 1000 1000 stWalkHungry1 ∧ stWalkHungry1.is_walking = true ∧
      feed_pet (feed_pet stWalkHungry1) = stWalkHungry1 ∧
      (feed_pet (feed_pet stWalkHungry1)).hunger ≠ 0 :=
  ⟨reach_stWalkHungry1, by decide, by decide, by decide⟩

/-- C4, amended.  For every state that is not mid-walk, feeding twice leaves
hungerLevel 0, isHungry false and no Fish; and on every state whatsoever the
second feed changes nothing beyond the first (feeding is idempotent as a
function). -/
theorem C4_amended :
    (∀ s : PetState, s.is_walking = false →
      (feed_pet (feed_pet s)).hunger = 0 ∧
      (feed_pet (feed_pet s)).is_hungry = false ∧
      (feed_pet (feed_pet s)).fish = none) ∧
    (∀ s : PetState, feed_pet (feed_pet s) = feed_pet s) := by
  constructor
  · intro s h
    rw [feed_pet_idem]
    obtain ⟨h1, h2, h3, _⟩ := feed_pet_idle s h
    exact ⟨h1, h2, h3⟩
  · exact feed_pet_idem

/-- C4 witness: the amended double-feed property on the concrete idle
initial state. -/
theorem C4_amended_witness :
    (feed_pet (feed_pet st0)).hunger = 0 ∧
      (feed_pet (feed_pet st0)).is_hungry = false ∧
      (feed_pet (feed_pet st0)).fish = none :=
  C4_amended.1 st0 (by decide)

/-- C5 (confirmed).  Invoking feed while the pet is Walking is a complete
no-op: the resulting state is equal to the input state, so hunger level,
isHungry, the Fish, the motion state and the active animation (including
every animator cursor) are all unchanged. -/
theorem C5_feed_lockout :
    ∀ s : PetState, s.is_walking = true → feed_pet s = s :=
  feed_pet_walking

/-- C5 witness: the lockout on the concrete reachable walking state. -/
theorem C5_feed_lockout_witness :
    feed_pet stWalkHungry1 = stWalkHungry1 :=
  C5_feed_lockout stWalkHungry1 (by decide)

/-- C6 (code_bug).  The specification requires out-of-bounds target
generation to be clamped so that it never produces an invalid random range.
The code computes min_x = max(0, x - 200) and max_x = min(screen_w - width,
x + 200) and passes them to random.randint unchecked: on the reachable state
stDragged (the pet dragged to x = -300 on a 1000-px screen, idle and not
hungry) a triggered walk computes the empty range (0, -100) and
random.randint raises ValueError (modelled as none), instead of picking a
clamped target. -/
theorem C6_random_walk_invalid_range :
    Reach 1000 1000 stDragged ∧ stDragged.is_hungry = false ∧
      stDragged.is_walking = false ∧ stDragged.x = -300 ∧
      max 0 (stDragged.x - 200) = 0 ∧
      min (stDragged.screen_w - stDragged.w) (stDragged.x + 200) = -100 ∧
      random_walk (mkRat 1 5) 0 0 stDragged = none :=
  ⟨reach_stDragged, by decide, by decide, by decide, by decide, by decide,
    by decide⟩

/-- C7 (confirmed).  An attention-timer firing dashes only when the pet is
not hungry, not walking and was_offscreen is true, and all three gates are
necessary: a firing on a hungry pet, on a walking pet, or on a pet whose
flag is clear is a complete no-op.  In particular, if the pet has never
left screen bounds (was_offscreen false) any number of consecutive firings
do nothing.  When a dash does occur, the pet teleports to x = -width (just
off the left edge) at the drawn vertical position, was_offscreen is cleared
and the one-shot walk-back is scheduled; when that deferred action fires, a
walk toward the screen centre begins. -/
theorem C7_attention_gating :
    (∀ (s : PetState) (ry : ℤ),
      s.is_hungry = true ∨ s.is_walking = true ∨ s.was_offscreen = false →
      attention_seek ry s = s) ∧
    (∀ (s : PetState) (ry : ℤ), s.was_offscreen = false →
      attention_seek ry s = s) ∧
    (∀ (s : PetState) (g : ℕ → ℤ) (n : ℕ), s.was_offscreen = false →
      attnIter g n s = s) ∧
    (∀ (s : PetState) (ry : ℤ), s.is_hungry = false → s.is_walking = false →
      s.was_offscreen = true →
      attention_seek ry s =
        { s with x := -s.w, y := ry, was_offscreen := false,
                 pending_walk_back := true } ∧
      (walk_back_for_attention (attention_seek ry s)).is_walking = true ∧
      (walk_back_for_attention (attention_seek ry s)).target_x =
        Int.ediv s.screen_w 2 ∧
      (walk_back_for_attention (attention_seek ry s)).target_y =
        Int.ediv s.screen_h 2) := by
  have hgate : ∀ (s : PetState) (ry : ℤ),
      s.is_hungry = true ∨ s.is_walking = true ∨ s.was_offscreen = false →
      attention_seek ry s = s := by
    intro s ry h
    unfold attention_seek
    rcases h with h | h | h <;> rw [if_neg (by simp [h])]
  have hno : ∀ (s : PetState) (ry : ℤ), s.was_offscreen = false →
      attention_seek ry s = s :=
    fun s ry h => hgate s ry (Or.inr (Or.inr h))
  refine ⟨hgate, hno, ?_, ?_⟩
  · intro s g n h
    induction n with
    | zero => rfl
    | succ n ih =>
        show attention_seek (g n) (attnIter g n s) = s
        rw [ih, hno s (g n) h]
  · intro s ry h1 h2 h3
    have hdash : attention_seek ry s =
        { s with x := -s.w, y := ry, was_offscreen := false,
                 pending_walk_back := true } := by
      unfold attention_seek
      rw [if_pos ⟨h1, h2, h3⟩]
    refine ⟨hdash, ?_, ?_, ?_⟩ <;> rw [hdash] <;> simp [walk_back_for_attention]

/-- C7 witness: a firing on the hungry flagged state stHungryOff and on the
walking flagged state stWalkFlag is a no-op (so the hunger and walking
gates are each necessary), 100 consecutive firings on the never-offscreen
initial state do nothing, and a dash from the eligible state stOff
teleports off the left edge. -/
theorem C7_attention_gating_witness :
    attention_seek 5 stHungryOff = stHungryOff ∧
      attention_seek 5 stWalkFlag = stWalkFlag ∧
      attnIter (fun _ => 0) 100 st0 = st0 ∧
      attention_seek 5 stOff =
        { stOff with x := -stOff.w, y := 5, was_offscreen := false,
                     pending_walk_back := true } :=
  ⟨C7_attention_gating.1 stHungryOff 5 (Or.inl (by decide)),
    C7_attention_gating.1 stWalkFlag 5 (Or.inr (Or.inl (by decide))),
    C7_attention_gating.2.2.1 st0 (fun _ => 0) 100 (by decide),
    (C7_attention_gating.2.2.2 stOff 5 (by decide) (by decide) (by decide)).1⟩

/-- C8 (confirmed).  SpriteAnimator cursor contract: construction with a
positive frame count yields cursor 0 and the invariant that the cursor is a
valid index into the frame list; under that invariant next_frame cannot
fail, returns the frame at the cursor and increments the cursor modulo
frame_count, preserving the invariant; reset restores cursor 0 and also
preserves it. -/
theorem C8_animator_cursor :
    ∀ (sheet : ℕ → ℕ) (n : ℕ) (mir : Bool), 0 < n →
      (SAInv (SpriteAnimator.make sheet n mir) ∧
        (SpriteAnimator.make sheet n mir).current_frame = 0) ∧
      (∀ a : SpriteAnimator, SAInv a →
        (∃ fr a', a.frames.get? a.current_frame = some fr ∧
          a.next_frame = some (fr, a') ∧
          a'.current_frame = (a.current_frame + 1) % a.frame_count ∧
          a'.frames = a.frames ∧ a'.frame_count = a.frame_count ∧ SAInv a') ∧
        (SAInv a.reset ∧ a.reset.current_frame = 0)) :=
  fun sheet n mir hn =>
    ⟨SAInv_make sheet n mir hn,
      fun a ha => ⟨next_frame_some a ha, reset_inv a ha⟩⟩

/-- C8 witness: the contract applied to a concrete 8-frame animator. -/
theorem C8_animator_cursor_witness :
    SAInv (SpriteAnimator.make id 8 false) ∧
      (∃ fr a', (SpriteAnimator.make id 8 false).next_frame = some (fr, a')) := by
  have H := C8_animator_cursor id 8 false (by decide)
  refine ⟨H.1.1, ?_⟩
  obtain ⟨fr, a', -, h2, -⟩ := (H.2 (SpriteAnimator.make id 8 false) H.1.1).1
  exact ⟨fr, a', h2⟩

/-- C9 (confirmed).  The deferred walk-back step of an attention dash is
unguarded: on every state whatsoever, including hungry states showing the
meow animation and states already walking, it sets the target to the screen
centre, the direction to right, the animation to walk_r (resetting that
animator cursor) and the motion state to Walking, changing nothing else. -/
theorem C9_walk_back_unconditional :
    (∀ s : PetState,
      walk_back_for_attention s =
        { s with target_x := Int.ediv s.screen_w 2,
                 target_y := Int.ediv s.screen_h 2, direction := 1,
                 anim := AnimName.walk_r, curWalkR := 0, is_walking := true }) ∧
    (∀ s : PetState, s.is_hungry = true →
      (walk_back_for_attention s).anim = AnimName.walk_r ∧
      (walk_back_for_attention s).is_hungry = true) := by
  constructor
  · intro s
    rfl
  · intro s h
    exact ⟨by simp [walk_back_for_attention], by simp [walk_back_for_attention, h]⟩

/-- C9 witness: the unguarded walk-back applied to the hungry state stBad,
overriding its animation while it stays hungry. -/
theorem C9_walk_back_unconditional_witness :
    (walk_back_for_attention stBad).anim = AnimName.walk_r ∧
      (walk_back_for_attention stBad).is_hungry = true :=
  C9_walk_back_unconditional.2 stBad (by decide)

/-- C10 (confirmed).  Across every operation of the event loop,
was_offscreen can go from false to true only on a motion tick taken while
the motion state is Walking; in particular a mouse drag never changes
was_offscreen, so dragging the idle pet offscreen never makes a later
attention dash eligible. -/
theorem C10_offscreen_only_when_walking :
    (∀ (op : Op) (s s' : PetState), applyOp op s = some s' →
      s.was_offscreen = false → s'.was_offscreen = true →
      op = Op.motion ∧ s.is_walking = true) ∧
    (∀ (dx dy : ℤ) (s : PetState),
      (mouse_drag dx dy s).was_offscreen = s.was_offscreen) :=
  ⟨applyOp_offscreen, fun _ _ _ => rfl⟩

/-- C10 witness: the only-motion property applied to the offscreen walking
state stWalkOff, whose motion tick sets the flag. -/
theorem C10_offscreen_only_when_walking_witness :
    Op.motion = Op.motion ∧ stWalkOff.is_walking = true :=
  C10_offscreen_only_when_walking.1 Op.motion stWalkOff
    (update_position stWalkOff) rfl (by decide) (by decide)

end VirtualPet
